import Mathlib

/-!
# Verification of the continuous order-matching engine

Shallow embedding of the matching core (`match_order` in `exchange.py`).
Python dict-orders become the `Order` structure; the global `order_books`
dict becomes a `Books` map from instrument name to `Book`; list mutation
becomes explicit state passing.  Prices are embedded as rationals (the
source only copies and compares prices, never does arithmetic on them,
so the embedding is exact); quantities are integers.  The wall-clock
calls `datetime.now()` are embedded as an explicit clock `ts : Nat → Nat`
supplying the timestamp of the i-th `now()` call inside one
`match_order` invocation.
-/

/-- One order, as the Python dict carried through `exchange.py`.
`stock` is optional because the source reads it with
`new_order.get("stock", "XYZ")`; `side` is a raw string because the
source never validates it. `timestamp` is the producer-assigned string;
the matching core never reads it. -/
structure Order where
  username : String
  stock : Option String
  side : String
  quantity : Int
  price : Rat
  timestamp : String
deriving DecidableEq, Repr

/-- One executed trade, as built at lines 72-79 of `exchange.py`.
`timestamp` is the value returned by the `datetime.now()` call. -/
structure Trade where
  stock : String
  buyer : String
  seller : String
  price : Rat
  quantity : Int
  timestamp : Nat
deriving DecidableEq, Repr

/-- One per-instrument order book: the Python dict
`{"BUY": [...], "SELL": [...]}`. -/
structure Book where
  buy : List Order
  sell : List Order
deriving DecidableEq, Repr

def emptyBook : Book := ⟨[], []⟩

/-- The global `order_books` registry: instrument name to book,
`none` when the key is absent. -/
abbrev Books := String → Option Book

def emptyBooks : Books := fun _ => none

def updateBooks (books : Books) (k : String) (b : Book) : Books :=
  fun s => if s = k then some b else books s

/-- Python dict lookup `book[side]`: `none` models a `KeyError`. -/
def listFor (b : Book) (s : String) : Option (List Order) :=
  if s = "BUY" then some b.buy else if s = "SELL" then some b.sell else none

/-- Writing back a side list; only invoked on keys known to be present. -/
def setList (b : Book) (s : String) (l : List Order) : Book :=
  if s = "BUY" then { b with buy := l } else { b with sell := l }

/-- The uncaught Python exception observable from `match_order`:
`order_books[stock][side]` with a side that is neither BUY nor SELL. -/
inductive ExchangeError where
  | keyError
deriving DecidableEq, Repr

/-- `matching_orders.sort(key=lambda o: o['price'])` — ascending, stable. -/
def sortAsc (l : List Order) : List Order :=
  List.insertionSort (fun a b => a.price ≤ b.price) l

/-- `matching_orders.sort(key=lambda o: -o['price'])` — descending, stable. -/
def sortDesc (l : List Order) : List Order :=
  List.insertionSort (fun a b => b.price ≤ a.price) l

/-- The price compatibility test of lines 60-63:
`(side == "BUY" and new.price >= existing.price) or
 (side == "SELL" and new.price <= existing.price)`. -/
def priceMatchB (side : String) (newPrice : Rat) (existing : Order) : Bool :=
  (side == "BUY" && decide (newPrice ≥ existing.price)) ||
    (side == "SELL" && decide (newPrice ≤ existing.price))

/-- The trade record built at lines 72-79 for one match of the incoming
order (price `newPrice`, submitter `newUser`, side string `side`) against
the resting order `existing`, with executed quantity `q` and the
timestamp `t` returned by `datetime.now()`. -/
def mkTrade (stock side : String) (newPrice : Rat) (newUser : String)
    (existing : Order) (t : Nat) (q : Int) : Trade :=
  { stock := stock
    buyer := if side = "BUY" then newUser else existing.username
    seller := if side = "BUY" then existing.username else newUser
    price := if side = "BUY" then existing.price else newPrice
    quantity := q
    timestamp := t }

/-- The matching loop of lines 56-88.  Consumes the opposite-side list
front-first while quantity remains and prices cross; returns the trades,
the remaining unmatched quantity, and the surviving opposite-side list.
`k` counts the `datetime.now()` calls already made in this invocation. -/
def matchLoop (stock side : String) (newPrice : Rat) (newUser : String)
    (ts : Nat → Nat) (k : Nat) (remaining : Int) (l : List Order) :
    List Trade × Int × List Order :=
  match l with
  | [] => ([], remaining, [])
  | existing :: rest =>
    if 0 < remaining then
      if priceMatchB side newPrice existing then
        let trade : Trade := mkTrade stock side newPrice newUser existing
          (ts k) (min remaining existing.quantity)
        if existing.quantity - min remaining existing.quantity = 0 then
          let res := matchLoop stock side newPrice newUser ts (k + 1)
            (remaining - min remaining existing.quantity) rest
          (trade :: res.1, res.2)
        else
          let res := matchLoop stock side newPrice newUser ts (k + 1)
            (remaining - min remaining existing.quantity)
            ({ existing with
                quantity := existing.quantity - min remaining existing.quantity } :: rest)
          (trade :: res.1, res.2)
      else ([], remaining, existing :: rest)
    else ([], remaining, existing :: rest)
termination_by (l.length, remaining.toNat)
decreasing_by
  · simp_wf
    omega
  · simp_wf
    rename_i hrem _ hq
    rw [Prod.lex_iff]
    right
    constructor
    · rfl
    · simp only [min_def] at hq ⊢
      split at hq <;> split <;> omega

/-- `match_order` of `exchange.py` (lines 30-95), as a state transformer
on the `order_books` registry.  The first component is the returned trade
list, or the uncaught `KeyError`; the second is the registry afterwards
(the Python global retains its mutations even when the exception
propagates). -/
def matchOrder (ts : Nat → Nat) (books : Books) (newOrder : Order) :
    Except ExchangeError (List Trade) × Books :=
  let stock := newOrder.stock.getD "XYZ"
  let side := newOrder.side
  let books1 := if (books stock).isSome then books
    else updateBooks books stock emptyBook
  let book := (books1 stock).getD emptyBook
  let oppositeSide := if side = "BUY" then "SELL" else "BUY"
  let matchingOrders := if oppositeSide = "SELL" then book.sell else book.buy
  let sorted := if oppositeSide = "SELL" then sortAsc matchingOrders
    else sortDesc matchingOrders
  let res := matchLoop stock side newOrder.price newOrder.username ts 0
    newOrder.quantity sorted
  let book1 := if oppositeSide = "SELL" then { book with sell := res.2.2 }
    else { book with buy := res.2.2 }
  if 0 < res.2.1 then
    match listFor book1 side with
    | none => (Except.error ExchangeError.keyError, updateBooks books1 stock book1)
    | some own => (Except.ok res.1,
        updateBooks books1 stock
          (setList book1 side (own ++ [{ newOrder with quantity := res.2.1 }])))
  else (Except.ok res.1, updateBooks books1 stock book1)

/-! ## Vocabulary for the specification claims -/

/-- A constant clock, used to instantiate the `datetime.now()` parameter
in concrete computations. -/
def ts0 : Nat → Nat := fun _ => 0

/-- The instrument an order is routed to: `new_order.get("stock", "XYZ")`. -/
def stockOf (o : Order) : String := o.stock.getD "XYZ"

/-- The book currently registered for an instrument (empty if absent). -/
def bookAt (books : Books) (s : String) : Book := (books s).getD emptyBook

/-- The side of a book an incoming order with side string `side` matches
against (`"SELL" if side == "BUY" else "BUY"`). -/
def oppList (side : String) (b : Book) : List Order :=
  if side = "BUY" then b.sell else b.buy

/-- The side of a book an incoming order with side string `side` would
rest on.  Only meaningful for the two valid side strings. -/
def ownList (side : String) (b : Book) : List Order :=
  if side = "BUY" then b.buy else b.sell

/-- The validity predicate of the specification: known side, positive
quantity, positive price. -/
def ValidOrder (o : Order) : Prop :=
  (o.side = "BUY" ∨ o.side = "SELL") ∧ 0 < o.quantity ∧ 0 < o.price

instance (o : Order) : Decidable (ValidOrder o) := by
  unfold ValidOrder; infer_instance

/-- Processing a stream of orders starting from an empty registry,
keeping only the book state. -/
def submitAll (ts : Nat → Nat) (orders : List Order) : Books :=
  orders.foldl (fun bs o => (matchOrder ts bs o).2) emptyBooks

/-- Highest resting bid price, if any bid rests. -/
def bestBid (b : Book) : Option Rat := (b.buy.map Order.price).max?

/-- Lowest resting ask price, if any ask rests. -/
def bestAsk (b : Book) : Option Rat := (b.sell.map Order.price).min?

/-- Two order records denote the same logical order: all fields agree
except possibly the mutable remaining quantity. -/
def sameId (a b : Order) : Prop :=
  a.username = b.username ∧ a.stock = b.stock ∧ a.side = b.side ∧
    a.price = b.price ∧ a.timestamp = b.timestamp

instance (a b : Order) : Decidable (sameId a b) := by
  unfold sameId; infer_instance

/-- Forget a trade's wall-clock timestamp. -/
def scrubTrade (t : Trade) : Trade := { t with timestamp := 0 }

/-- Forget an order's stock field (which the matching core never reads
once an order rests). -/
def eraseStock (o : Order) : Order := { o with stock := none }

def eraseStockBook (b : Book) : Book :=
  ⟨b.buy.map eraseStock, b.sell.map eraseStock⟩

def eraseStockBooks (bs : Books) : Books := fun s => (bs s).map eraseStockBook

/-- Total quantity of a trade list. -/
def tradesQty (l : List Trade) : Int := (l.map Trade.quantity).sum

/-- Total resting quantity of an order list. -/
def ordersQty (l : List Order) : Int := (l.map Order.quantity).sum

/-- Every order in the list has strictly positive remaining quantity. -/
def PosQty (l : List Order) : Prop := ∀ x ∈ l, 0 < x.quantity

/-- The book invariants of the specification: positive resting
quantities and no crossed book. -/
def GoodBook (b : Book) : Prop :=
  PosQty b.buy ∧ PosQty b.sell ∧
    ∀ x ∈ b.buy, ∀ y ∈ b.sell, x.price < y.price

/-- Every registered book satisfies the book invariants. -/
def GoodBooks (bs : Books) : Prop := ∀ s b, bs s = some b → GoodBook b

/-! ## The example scenario of the specification (section 8) -/

def ordA : Order := ⟨"A", some "XYZ", "SELL", 100, 50, ""⟩
def ordB : Order := ⟨"B", some "XYZ", "BUY", 60, 51, ""⟩
def ordC : Order := ⟨"C", some "XYZ", "BUY", 50, 49, ""⟩
def ordD : Order := ⟨"D", some "XYZ", "SELL", 40, 48, ""⟩

def scenStep1 : Except ExchangeError (List Trade) × Books :=
  matchOrder ts0 emptyBooks ordA
def scenStep2 : Except ExchangeError (List Trade) × Books :=
  matchOrder ts0 scenStep1.2 ordB
def scenStep3 : Except ExchangeError (List Trade) × Books :=
  matchOrder ts0 scenStep2.2 ordC
def scenStep4 : Except ExchangeError (List Trade) × Books :=
  matchOrder ts0 scenStep3.2 ordD

/-! ## Further concrete inputs used to settle individual claims -/

/-- A clock that answers 1 on every call. -/
def ts1 : Nat → Nat := fun _ => 1

/-- A registry holding one book with a single resting bid 50 @ 49 by C. -/
def c1Books : Books :=
  updateBooks emptyBooks "XYZ" ⟨[⟨"C", some "XYZ", "BUY", 50, 49, ""⟩], []⟩

/-- An aggressor sell 40 @ 48 by D, crossing the resting bid above. -/
def c1Sell : Order := ⟨"D", some "XYZ", "SELL", 40, 48, ""⟩

/-- An order with quantity 0 for a previously unseen instrument. -/
def c2ZeroQty : Order := ⟨"E", some "ABC", "BUY", 0, 10, ""⟩

/-- An order whose side string is neither BUY nor SELL. -/
def c2BadSide : Order := ⟨"E", some "XYZ", "HOLD", 5, 10, ""⟩

/-- Two resting asks at the same price, earlier arrival first. -/
def c4o1 : Order := ⟨"A", some "XYZ", "SELL", 100, 50, ""⟩
def c4o2 : Order := ⟨"B", some "XYZ", "SELL", 100, 50, ""⟩
def c4Books : Books := updateBooks emptyBooks "XYZ" ⟨[], [c4o1, c4o2]⟩

/-- A buy crossing both resting asks, filling the first fully and part
of the second. -/
def c4Buy : Order := ⟨"Z", some "XYZ", "BUY", 150, 50, ""⟩

/-- A registry with one resting ask 5 @ 10 by A. -/
def c9Books : Books :=
  updateBooks emptyBooks "XYZ" ⟨[], [⟨"A", some "XYZ", "SELL", 5, 10, ""⟩]⟩

/-- A buy that fully crosses the ask above. -/
def c9Buy : Order := ⟨"B", some "XYZ", "BUY", 5, 10, ""⟩

/-- An order with no stock field at all. -/
def c10NoStock : Order := ⟨"F", none, "BUY", 10, 1, ""⟩

/-! ## Step lemmas for the matching loop -/

theorem matchLoop_nil (stock side : String) (p : Rat) (u : String)
    (ts : Nat → Nat) (k : Nat) (rem : Int) :
    matchLoop stock side p u ts k rem [] = ([], rem, []) := by
  rw [matchLoop]

theorem matchLoop_cons_stop (stock side : String) (p : Rat) (u : String)
    (ts : Nat → Nat) (k : Nat) (rem : Int) (e : Order) (rest : List Order)
    (h : ¬ 0 < rem) :
    matchLoop stock side p u ts k rem (e :: rest) = ([], rem, e :: rest) := by
  rw [matchLoop]
  rw [if_neg h]

theorem matchLoop_cons_noCross (stock side : String) (p : Rat) (u : String)
    (ts : Nat → Nat) (k : Nat) (rem : Int) (e : Order) (rest : List Order)
    (h : 0 < rem) (h2 : ¬ priceMatchB side p e = true) :
    matchLoop stock side p u ts k rem (e :: rest) = ([], rem, e :: rest) := by
  rw [matchLoop]
  rw [if_pos h, if_neg h2]

theorem matchLoop_cons_fill (stock side : String) (p : Rat) (u : String)
    (ts : Nat → Nat) (k : Nat) (rem : Int) (e : Order) (rest : List Order)
    (h : 0 < rem) (h2 : priceMatchB side p e = true)
    (h3 : e.quantity - min rem e.quantity = 0) :
    matchLoop stock side p u ts k rem (e :: rest) =
      (mkTrade stock side p u e (ts k) (min rem e.quantity) ::
          (matchLoop stock side p u ts (k + 1) (rem - min rem e.quantity) rest).1,
        (matchLoop stock side p u ts (k + 1) (rem - min rem e.quantity) rest).2) := by
  rw [matchLoop]
  rw [if_pos h, if_pos h2, if_pos h3]

theorem matchLoop_cons_reduce (stock side : String) (p : Rat) (u : String)
    (ts : Nat → Nat) (k : Nat) (rem : Int) (e : Order) (rest : List Order)
    (h : 0 < rem) (h2 : priceMatchB side p e = true)
    (h3 : ¬ e.quantity - min rem e.quantity = 0) :
    matchLoop stock side p u ts k rem (e :: rest) =
      (mkTrade stock side p u e (ts k) (min rem e.quantity) ::
          (matchLoop stock side p u ts (k + 1) (rem - min rem e.quantity)
            ({ e with quantity := e.quantity - min rem e.quantity } :: rest)).1,
        (matchLoop stock side p u ts (k + 1) (rem - min rem e.quantity)
          ({ e with quantity := e.quantity - min rem e.quantity } :: rest)).2) := by
  rw [matchLoop]
  rw [if_pos h, if_pos h2, if_neg h3]

theorem matchLoop_conserve (stock side : String) (p : Rat) (u : String)
    (ts : Nat → Nat) (k : Nat) (rem : Int) (l : List Order) :
    tradesQty (matchLoop stock side p u ts k rem l).1 +
        (matchLoop stock side p u ts k rem l).2.1 = rem ∧
      tradesQty (matchLoop stock side p u ts k rem l).1 +
        ordersQty (matchLoop stock side p u ts k rem l).2.2 = ordersQty l := by
  induction k, rem, l using matchLoop.induct stock side p u ts with
  | case1 k rem => simp [matchLoop_nil, tradesQty, ordersQty]
  | case2 k rem e rest hrem hpm hq ih =>
    rw [matchLoop_cons_fill stock side p u ts k rem e rest hrem hpm hq]
    simp only [tradesQty, ordersQty, List.map_cons, List.sum_cons, mkTrade] at ih ⊢
    omega
  | case3 k rem e rest hrem hpm hq ih =>
    rw [matchLoop_cons_reduce stock side p u ts k rem e rest hrem hpm hq]
    simp only [tradesQty, ordersQty, List.map_cons, List.sum_cons, mkTrade] at ih ⊢
    omega
  | case4 k rem e rest hrem hpm =>
    rw [matchLoop_cons_noCross stock side p u ts k rem e rest hrem hpm]
    simp [tradesQty]
  | case5 k rem e rest hrem =>
    rw [matchLoop_cons_stop stock side p u ts k rem e rest hrem]
    simp [tradesQty]

theorem matchLoop_rem_nonneg (stock side : String) (p : Rat) (u : String)
    (ts : Nat → Nat) (k : Nat) (rem : Int) (l : List Order)
    (h : 0 ≤ rem) : 0 ≤ (matchLoop stock side p u ts k rem l).2.1 := by
  induction k, rem, l using matchLoop.induct stock side p u ts with
  | case1 k rem => rw [matchLoop_nil]; exact h
  | case2 k rem e rest hrem hpm hq ih =>
    rw [matchLoop_cons_fill stock side p u ts k rem e rest hrem hpm hq]
    exact ih (by omega)
  | case3 k rem e rest hrem hpm hq ih =>
    rw [matchLoop_cons_reduce stock side p u ts k rem e rest hrem hpm hq]
    exact ih (by omega)
  | case4 k rem e rest hrem hpm =>
    rw [matchLoop_cons_noCross stock side p u ts k rem e rest hrem hpm]
    exact h
  | case5 k rem e rest hrem =>
    rw [matchLoop_cons_stop stock side p u ts k rem e rest hrem]
    exact h

theorem matchLoop_mem (stock side : String) (p : Rat) (u : String)
    (ts : Nat → Nat) (k : Nat) (rem : Int) (l : List Order) :
    ∀ x ∈ (matchLoop stock side p u ts k rem l).2.2,
      ∃ y ∈ l, x = { y with quantity := x.quantity } ∧ x.quantity ≤ y.quantity := by
  induction k, rem, l using matchLoop.induct stock side p u ts with
  | case1 k rem => rw [matchLoop_nil]; intro x hx; cases hx
  | case2 k rem e rest hrem hpm hq ih =>
    rw [matchLoop_cons_fill stock side p u ts k rem e rest hrem hpm hq]
    intro x hx
    obtain ⟨y, hy, hxy, hle⟩ := ih x hx
    exact ⟨y, List.mem_cons_of_mem e hy, hxy, hle⟩
  | case3 k rem e rest hrem hpm hq ih =>
    rw [matchLoop_cons_reduce stock side p u ts k rem e rest hrem hpm hq]
    intro x hx
    obtain ⟨y, hy, hxy, hle⟩ := ih x hx
    rcases List.mem_cons.1 hy with hy0 | hy1
    · refine ⟨e, List.mem_cons_self e rest, ?_, ?_⟩
      · rw [hxy, hy0]
      · rw [hy0] at hle
        simp only at hle
        omega
    · exact ⟨y, List.mem_cons_of_mem e hy1, hxy, hle⟩
  | case4 k rem e rest hrem hpm =>
    rw [matchLoop_cons_noCross stock side p u ts k rem e rest hrem hpm]
    intro x hx
    exact ⟨x, hx, rfl, le_refl x.quantity⟩
  | case5 k rem e rest hrem =>
    rw [matchLoop_cons_stop stock side p u ts k rem e rest hrem]
    intro x hx
    exact ⟨x, hx, rfl, le_refl x.quantity⟩

theorem matchLoop_pos (stock side : String) (p : Rat) (u : String)
    (ts : Nat → Nat) (k : Nat) (rem : Int) (l : List Order)
    (h : PosQty l) : PosQty (matchLoop stock side p u ts k rem l).2.2 := by
  induction k, rem, l using matchLoop.induct stock side p u ts with
  | case1 k rem => rw [matchLoop_nil]; exact h
  | case2 k rem e rest hrem hpm hq ih =>
    rw [matchLoop_cons_fill stock side p u ts k rem e rest hrem hpm hq]
    exact ih fun x hx => h x (List.mem_cons_of_mem e hx)
  | case3 k rem e rest hrem hpm hq ih =>
    rw [matchLoop_cons_reduce stock side p u ts k rem e rest hrem hpm hq]
    refine ih ?_
    intro x hx
    rcases List.mem_cons.1 hx with hx0 | hx1
    · rw [hx0]
      have := h e (List.mem_cons_self e rest)
      simp only
      omega
    · exact h x (List.mem_cons_of_mem e hx1)
  | case4 k rem e rest hrem hpm =>
    rw [matchLoop_cons_noCross stock side p u ts k rem e rest hrem hpm]
    exact h
  | case5 k rem e rest hrem =>
    rw [matchLoop_cons_stop stock side p u ts k rem e rest hrem]
    exact h

theorem priceMatchB_update (side : String) (p : Rat) (e : Order) (q : Int) :
    priceMatchB side p { e with quantity := q } = priceMatchB side p e := rfl

theorem matchLoop_noCross (stock side : String) (p : Rat) (u : String)
    (ts : Nat → Nat) (k : Nat) (rem : Int) (l : List Order) :
    (l.Pairwise fun a b => priceMatchB side p b = true → priceMatchB side p a = true) →
      0 < (matchLoop stock side p u ts k rem l).2.1 →
      ∀ x ∈ (matchLoop stock side p u ts k rem l).2.2,
        priceMatchB side p x = false := by
  induction k, rem, l using matchLoop.induct stock side p u ts with
  | case1 k rem =>
    rw [matchLoop_nil]
    intro _ _ x hx
    cases hx
  | case2 k rem e rest hrem hpm hq ih =>
    rw [matchLoop_cons_fill stock side p u ts k rem e rest hrem hpm hq]
    dsimp only
    intro hpair hr
    exact ih (List.Pairwise.of_cons hpair) hr
  | case3 k rem e rest hrem hpm hq ih =>
    rw [matchLoop_cons_reduce stock side p u ts k rem e rest hrem hpm hq]
    dsimp only
    intro hpair hr
    refine ih ?_ hr
    rw [List.pairwise_cons] at hpair ⊢
    refine ⟨?_, hpair.2⟩
    intro b hb
    rw [priceMatchB_update]
    exact hpair.1 b hb
  | case4 k rem e rest hrem hpm =>
    rw [matchLoop_cons_noCross stock side p u ts k rem e rest hrem hpm]
    dsimp only
    intro hpair _ x hx
    rcases List.mem_cons.1 hx with hx0 | hx1
    · rw [hx0]
      exact Bool.not_eq_true _ ▸ eq_false_of_ne_true hpm
    · rw [List.pairwise_cons] at hpair
      exact eq_false_of_ne_true fun hb => hpm (hpair.1 x hx1 hb)
  | case5 k rem e rest hrem =>
    rw [matchLoop_cons_stop stock side p u ts k rem e rest hrem]
    dsimp only
    intro _ hr
    exact absurd hr hrem

theorem matchLoop_trades_src (stock side : String) (p : Rat) (u : String)
    (ts : Nat → Nat) (k : Nat) (rem : Int) (l : List Order) :
    ∀ t ∈ (matchLoop stock side p u ts k rem l).1, ∃ y ∈ l,
      t.buyer = (if side = "BUY" then u else y.username) ∧
      t.seller = (if side = "BUY" then y.username else u) ∧
      t.price = (if side = "BUY" then y.price else p) ∧
      t.stock = stock := by
  induction k, rem, l using matchLoop.induct stock side p u ts with
  | case1 k rem =>
    rw [matchLoop_nil]
    intro t ht
    cases ht
  | case2 k rem e rest hrem hpm hq ih =>
    rw [matchLoop_cons_fill stock side p u ts k rem e rest hrem hpm hq]
    dsimp only
    intro t ht
    rcases List.mem_cons.1 ht with ht0 | ht1
    · exact ⟨e, List.mem_cons_self e rest, by rw [ht0]; exact ⟨rfl, rfl, rfl, rfl⟩⟩
    · obtain ⟨y, hy, hrest⟩ := ih t ht1
      exact ⟨y, List.mem_cons_of_mem e hy, hrest⟩
  | case3 k rem e rest hrem hpm hq ih =>
    rw [matchLoop_cons_reduce stock side p u ts k rem e rest hrem hpm hq]
    dsimp only
    intro t ht
    rcases List.mem_cons.1 ht with ht0 | ht1
    · exact ⟨e, List.mem_cons_self e rest, by rw [ht0]; exact ⟨rfl, rfl, rfl, rfl⟩⟩
    · obtain ⟨y, hy, hb, hs, hp2, hst⟩ := ih t ht1
      rcases List.mem_cons.1 hy with hy0 | hy1
      · refine ⟨e, List.mem_cons_self e rest, ?_, ?_, ?_, hst⟩
        · rw [hb, hy0]
        · rw [hs, hy0]
        · rw [hp2, hy0]
      · exact ⟨y, List.mem_cons_of_mem e hy1, hb, hs, hp2, hst⟩
  | case4 k rem e rest hrem hpm =>
    rw [matchLoop_cons_noCross stock side p u ts k rem e rest hrem hpm]
    intro t ht
    cases ht
  | case5 k rem e rest hrem =>
    rw [matchLoop_cons_stop stock side p u ts k rem e rest hrem]
    intro t ht
    cases ht

theorem matchLoop_clock (stock side : String) (p : Rat) (u : String)
    (ts1 : Nat → Nat) (k1 : Nat) (rem : Int) (l : List Order) :
    ∀ ts2 k2,
      (matchLoop stock side p u ts1 k1 rem l).1.map scrubTrade =
        (matchLoop stock side p u ts2 k2 rem l).1.map scrubTrade ∧
      (matchLoop stock side p u ts1 k1 rem l).2 =
        (matchLoop stock side p u ts2 k2 rem l).2 := by
  induction k1, rem, l using matchLoop.induct stock side p u ts1 with
  | case1 k rem =>
    intro ts2 k2
    rw [matchLoop_nil, matchLoop_nil]
    exact ⟨rfl, rfl⟩
  | case2 k rem e rest hrem hpm hq ih =>
    intro ts2 k2
    rw [matchLoop_cons_fill stock side p u ts1 k rem e rest hrem hpm hq,
      matchLoop_cons_fill stock side p u ts2 k2 rem e rest hrem hpm hq]
    dsimp only
    obtain ⟨h1, h2⟩ := ih ts2 (k2 + 1)
    refine ⟨?_, h2⟩
    rw [List.map_cons, List.map_cons, h1]
    simp [scrubTrade, mkTrade]
  | case3 k rem e rest hrem hpm hq ih =>
    intro ts2 k2
    rw [matchLoop_cons_reduce stock side p u ts1 k rem e rest hrem hpm hq,
      matchLoop_cons_reduce stock side p u ts2 k2 rem e rest hrem hpm hq]
    dsimp only
    obtain ⟨h1, h2⟩ := ih ts2 (k2 + 1)
    refine ⟨?_, h2⟩
    rw [List.map_cons, List.map_cons, h1]
    simp [scrubTrade, mkTrade]
  | case4 k rem e rest hrem hpm =>
    intro ts2 k2
    rw [matchLoop_cons_noCross stock side p u ts1 k rem e rest hrem hpm,
      matchLoop_cons_noCross stock side p u ts2 k2 rem e rest hrem hpm]
    exact ⟨rfl, rfl⟩
  | case5 k rem e rest hrem =>
    intro ts2 k2
    rw [matchLoop_cons_stop stock side p u ts1 k rem e rest hrem,
      matchLoop_cons_stop stock side p u ts2 k2 rem e rest hrem]
    exact ⟨rfl, rfl⟩

theorem matchLoop_shape (stock side : String) (p : Rat) (u : String)
    (ts : Nat → Nat) (k : Nat) (rem : Int) (l : List Order) :
    ∃ A B, l = A ++ B ∧
      ((matchLoop stock side p u ts k rem l).2.2 = B ∨
        ∃ e q B2, B = e :: B2 ∧
          (matchLoop stock side p u ts k rem l).2.2 = { e with quantity := q } :: B2) := by
  induction k, rem, l using matchLoop.induct stock side p u ts with
  | case1 k rem =>
    rw [matchLoop_nil]
    exact ⟨[], [], rfl, Or.inl rfl⟩
  | case2 k rem e rest hrem hpm hq ih =>
    rw [matchLoop_cons_fill stock side p u ts k rem e rest hrem hpm hq]
    dsimp only
    obtain ⟨A, B, hAB, hres⟩ := ih
    exact ⟨e :: A, B, by rw [List.cons_append, ← hAB], hres⟩
  | case3 k rem e rest hrem hpm hq ih =>
    rw [matchLoop_cons_reduce stock side p u ts k rem e rest hrem hpm hq]
    dsimp only
    obtain ⟨A, B, hAB, hres⟩ := ih
    cases A with
    | nil =>
      rw [List.nil_append] at hAB
      rcases hres with hres1 | ⟨e2, q2, B2, hB, hres2⟩
      · refine ⟨[], e :: rest, rfl,
          Or.inr ⟨e, e.quantity - min rem e.quantity, rest, rfl, ?_⟩⟩
        rw [hres1, ← hAB]
      · rw [← hAB] at hB
        injection hB with hB1 hB2
        refine ⟨[], e :: rest, rfl, Or.inr ⟨e, q2, rest, rfl, ?_⟩⟩
        rw [hres2, ← hB1, hB2]
    | cons a A2 =>
      rw [List.cons_append] at hAB
      injection hAB with hAB1 hAB2
      exact ⟨e :: A2, B, by rw [List.cons_append, ← hAB2], hres⟩
  | case4 k rem e rest hrem hpm =>
    rw [matchLoop_cons_noCross stock side p u ts k rem e rest hrem hpm]
    exact ⟨[], e :: rest, rfl, Or.inl rfl⟩
  | case5 k rem e rest hrem =>
    rw [matchLoop_cons_stop stock side p u ts k rem e rest hrem]
    exact ⟨[], e :: rest, rfl, Or.inl rfl⟩

theorem scenB1 : scenStep1.2 "XYZ" =
    some ⟨[], [⟨"A", some "XYZ", "SELL", 100, 50, ""⟩]⟩ := by
  norm_num [scenStep1, matchOrder, ordA, sortAsc, sortDesc, matchLoop_nil,
    matchLoop_cons_stop, matchLoop_cons_noCross, matchLoop_cons_fill,
    matchLoop_cons_reduce, priceMatchB, listFor, setList, updateBooks,
    emptyBooks, emptyBook, mkTrade, beq_iff_eq,
    show ("SELL" : String) ≠ "BUY" from by decide,
    show ("BUY" : String) ≠ "SELL" from by decide]

theorem scenT1 : scenStep1.1 = Except.ok [] := by
  norm_num [scenStep1, matchOrder, ordA, sortAsc, sortDesc, matchLoop_nil,
    matchLoop_cons_stop, matchLoop_cons_noCross, matchLoop_cons_fill,
    matchLoop_cons_reduce, priceMatchB, listFor, setList, updateBooks,
    emptyBooks, emptyBook, mkTrade, beq_iff_eq,
    show ("SELL" : String) ≠ "BUY" from by decide,
    show ("BUY" : String) ≠ "SELL" from by decide]

theorem scenB2 : scenStep2.2 "XYZ" =
    some ⟨[], [⟨"A", some "XYZ", "SELL", 40, 50, ""⟩]⟩ := by
  norm_num [scenStep2, scenB1, matchOrder, ordB, sortAsc, sortDesc,
    matchLoop_nil, matchLoop_cons_stop, matchLoop_cons_noCross,
    matchLoop_cons_fill, matchLoop_cons_reduce, priceMatchB, listFor, setList,
    updateBooks, emptyBooks, emptyBook, mkTrade, beq_iff_eq,
    List.insertionSort, List.orderedInsert,
    show ("SELL" : String) ≠ "BUY" from by decide,
    show ("BUY" : String) ≠ "SELL" from by decide]

theorem scenT2 : scenStep2.1 = Except.ok [⟨"XYZ", "B", "A", 50, 60, 0⟩] := by
  norm_num [scenStep2, scenB1, matchOrder, ordB, sortAsc, sortDesc,
    matchLoop_nil, matchLoop_cons_stop, matchLoop_cons_noCross,
    matchLoop_cons_fill, matchLoop_cons_reduce, priceMatchB, listFor, setList,
    updateBooks, emptyBooks, emptyBook, mkTrade, beq_iff_eq, ts0,
    List.insertionSort, List.orderedInsert,
    show ("SELL" : String) ≠ "BUY" from by decide,
    show ("BUY" : String) ≠ "SELL" from by decide]

theorem scenB3 : scenStep3.2 "XYZ" =
    some ⟨[⟨"C", some "XYZ", "BUY", 50, 49, ""⟩],
      [⟨"A", some "XYZ", "SELL", 40, 50, ""⟩]⟩ := by
  norm_num [scenStep3, scenB2, matchOrder, ordC, sortAsc, sortDesc,
    matchLoop_nil, matchLoop_cons_stop, matchLoop_cons_noCross,
    matchLoop_cons_fill, matchLoop_cons_reduce, priceMatchB, listFor, setList,
    updateBooks, emptyBooks, emptyBook, mkTrade, beq_iff_eq,
    List.insertionSort, List.orderedInsert,
    show ("SELL" : String) ≠ "BUY" from by decide,
    show ("BUY" : String) ≠ "SELL" from by decide]

theorem scenT3 : scenStep3.1 = Except.ok [] := by
  norm_num [scenStep3, scenB2, matchOrder, ordC, sortAsc, sortDesc,
    matchLoop_nil, matchLoop_cons_stop, matchLoop_cons_noCross,
    matchLoop_cons_fill, matchLoop_cons_reduce, priceMatchB, listFor, setList,
    updateBooks, emptyBooks, emptyBook, mkTrade, beq_iff_eq,
    List.insertionSort, List.orderedInsert,
    show ("SELL" : String) ≠ "BUY" from by decide,
    show ("BUY" : String) ≠ "SELL" from by decide]

theorem scenB4 : scenStep4.2 "XYZ" =
    some ⟨[⟨"C", some "XYZ", "BUY", 10, 49, ""⟩],
      [⟨"A", some "XYZ", "SELL", 40, 50, ""⟩]⟩ := by
  norm_num [scenStep4, scenB3, matchOrder, ordD, sortAsc, sortDesc,
    matchLoop_nil, matchLoop_cons_stop, matchLoop_cons_noCross,
    matchLoop_cons_fill, matchLoop_cons_reduce, priceMatchB, listFor, setList,
    updateBooks, emptyBooks, emptyBook, mkTrade, beq_iff_eq,
    List.insertionSort, List.orderedInsert,
    show ("SELL" : String) ≠ "BUY" from by decide,
    show ("BUY" : String) ≠ "SELL" from by decide]

theorem scenT4 : scenStep4.1 = Except.ok [⟨"XYZ", "C", "D", 48, 40, 0⟩] := by
  norm_num [scenStep4, scenB3, matchOrder, ordD, sortAsc, sortDesc,
    matchLoop_nil, matchLoop_cons_stop, matchLoop_cons_noCross,
    matchLoop_cons_fill, matchLoop_cons_reduce, priceMatchB, listFor, setList,
    updateBooks, emptyBooks, emptyBook, mkTrade, beq_iff_eq, ts0,
    List.insertionSort, List.orderedInsert,
    show ("SELL" : String) ≠ "BUY" from by decide,
    show ("BUY" : String) ≠ "SELL" from by decide]

theorem matchOrder_buy_eq (ts : Nat → Nat) (books : Books) (o : Order)
    (h : o.side = "BUY") :
    matchOrder ts books o =
      (let books1 := if (books (stockOf o)).isSome then books
        else updateBooks books (stockOf o) emptyBook
      let book := bookAt books1 (stockOf o)
      let res := matchLoop (stockOf o) "BUY" o.price o.username ts 0 o.quantity
        (sortAsc book.sell)
      if 0 < res.2.1 then
        (Except.ok res.1, updateBooks books1 (stockOf o)
          ⟨book.buy ++ [{ o with quantity := res.2.1 }], res.2.2⟩)
      else (Except.ok res.1, updateBooks books1 (stockOf o) ⟨book.buy, res.2.2⟩)) := by
  unfold matchOrder stockOf bookAt
  rw [h]
  simp [listFor, setList]

theorem matchOrder_sell_eq (ts : Nat → Nat) (books : Books) (o : Order)
    (h : o.side = "SELL") :
    matchOrder ts books o =
      (let books1 := if (books (stockOf o)).isSome then books
        else updateBooks books (stockOf o) emptyBook
      let book := bookAt books1 (stockOf o)
      let res := matchLoop (stockOf o) "SELL" o.price o.username ts 0 o.quantity
        (sortDesc book.buy)
      if 0 < res.2.1 then
        (Except.ok res.1, updateBooks books1 (stockOf o)
          ⟨res.2.2, book.sell ++ [{ o with quantity := res.2.1 }]⟩)
      else (Except.ok res.1, updateBooks books1 (stockOf o) ⟨res.2.2, book.sell⟩)) := by
  unfold matchOrder stockOf bookAt
  rw [h]
  simp [listFor, setList]

theorem bookAt_init (books : Books) (s : String) :
    bookAt (if (books s).isSome then books else updateBooks books s emptyBook)
      s = bookAt books s := by
  rcases h : books s with _ | b
  · simp [bookAt, updateBooks, h]
  · simp [bookAt, updateBooks, h]

theorem matchOrder_buy_trades (ts : Nat → Nat) (books : Books) (o : Order)
    (h : o.side = "BUY") :
    (matchOrder ts books o).1 = Except.ok
      (matchLoop (stockOf o) "BUY" o.price o.username ts 0 o.quantity
        (sortAsc (bookAt books (stockOf o)).sell)).1 := by
  rw [matchOrder_buy_eq ts books o h]
  dsimp only
  rw [bookAt_init]
  split
  · rfl
  · rfl

theorem matchOrder_sell_trades (ts : Nat → Nat) (books : Books) (o : Order)
    (h : o.side = "SELL") :
    (matchOrder ts books o).1 = Except.ok
      (matchLoop (stockOf o) "SELL" o.price o.username ts 0 o.quantity
        (sortDesc (bookAt books (stockOf o)).buy)).1 := by
  rw [matchOrder_sell_eq ts books o h]
  dsimp only
  rw [bookAt_init]
  split
  · rfl
  · rfl

theorem matchOrder_buy_books (ts : Nat → Nat) (books : Books) (o : Order)
    (h : o.side = "BUY") :
    (matchOrder ts books o).2 =
      updateBooks
        (if (books (stockOf o)).isSome then books
          else updateBooks books (stockOf o) emptyBook)
        (stockOf o)
        (if 0 < (matchLoop (stockOf o) "BUY" o.price o.username ts 0 o.quantity
            (sortAsc (bookAt books (stockOf o)).sell)).2.1 then
          ⟨(bookAt books (stockOf o)).buy ++
              [{ o with quantity :=
                (matchLoop (stockOf o) "BUY" o.price o.username ts 0 o.quantity
                  (sortAsc (bookAt books (stockOf o)).sell)).2.1 }],
            (matchLoop (stockOf o) "BUY" o.price o.username ts 0 o.quantity
              (sortAsc (bookAt books (stockOf o)).sell)).2.2⟩
        else
          ⟨(bookAt books (stockOf o)).buy,
            (matchLoop (stockOf o) "BUY" o.price o.username ts 0 o.quantity
              (sortAsc (bookAt books (stockOf o)).sell)).2.2⟩) := by
  rw [matchOrder_buy_eq ts books o h]
  dsimp only
  rw [bookAt_init]
  split
  · rfl
  · rfl

theorem matchOrder_sell_books (ts : Nat → Nat) (books : Books) (o : Order)
    (h : o.side = "SELL") :
    (matchOrder ts books o).2 =
      updateBooks
        (if (books (stockOf o)).isSome then books
          else updateBooks books (stockOf o) emptyBook)
        (stockOf o)
        (if 0 < (matchLoop (stockOf o) "SELL" o.price o.username ts 0 o.quantity
            (sortDesc (bookAt books (stockOf o)).buy)).2.1 then
          ⟨(matchLoop (stockOf o) "SELL" o.price o.username ts 0 o.quantity
              (sortDesc (bookAt books (stockOf o)).buy)).2.2,
            (bookAt books (stockOf o)).sell ++
              [{ o with quantity :=
                (matchLoop (stockOf o) "SELL" o.price o.username ts 0 o.quantity
                  (sortDesc (bookAt books (stockOf o)).buy)).2.1 }]⟩
        else
          ⟨(matchLoop (stockOf o) "SELL" o.price o.username ts 0 o.quantity
              (sortDesc (bookAt books (stockOf o)).buy)).2.2,
            (bookAt books (stockOf o)).sell⟩) := by
  rw [matchOrder_sell_eq ts books o h]
  dsimp only
  rw [bookAt_init]
  split
  · rfl
  · rfl

theorem matchOrder_other (ts : Nat → Nat) (books : Books) (o : Order)
    (s : String) (hs : s ≠ stockOf o) :
    (matchOrder ts books o).2 s = books s := by
  simp only [stockOf] at hs
  unfold matchOrder
  dsimp only
  repeat' split
  all_goals dsimp only
  all_goals simp only [updateBooks, if_neg hs]

theorem matchOrder_registered (ts : Nat → Nat) (books : Books) (o : Order) :
    ((matchOrder ts books o).2 (stockOf o)).isSome = true := by
  unfold matchOrder
  dsimp only
  repeat' split
  all_goals dsimp only
  all_goals simp [updateBooks, stockOf]

theorem bookAt_update (bs : Books) (k : String) (b : Book) :
    bookAt (updateBooks bs k b) k = b := by
  simp [bookAt, updateBooks]

/-- C7: a valid order submitted when the opposite side of its
instrument's book is empty yields no trades and rests on its own side
with its submitted quantity unchanged. -/
theorem c7_empty_opposite_rests (ts : Nat → Nat) (books : Books) (o : Order)
    (hv : ValidOrder o)
    (hopp : oppList o.side (bookAt books (stockOf o)) = []) :
    (matchOrder ts books o).1 = Except.ok [] ∧
      ownList o.side (bookAt (matchOrder ts books o).2 (stockOf o)) =
        ownList o.side (bookAt books (stockOf o)) ++ [o] ∧
      oppList o.side (bookAt (matchOrder ts books o).2 (stockOf o)) = [] := by
  obtain ⟨hside, hq, hp⟩ := hv
  rcases hside with hb | hsl
  · have hopp2 : (bookAt books (stockOf o)).sell = [] := by
      simpa [oppList, hb] using hopp
    have h1 := matchOrder_buy_trades ts books o hb
    have h2 := matchOrder_buy_books ts books o hb
    rw [hopp2, show sortAsc [] = [] from rfl, matchLoop_nil] at h1 h2
    dsimp only at h1 h2
    rw [if_pos hq] at h2
    refine ⟨h1, ?_, ?_⟩
    · rw [h2, bookAt_update]
      simp [ownList, hb]
      rw [← hb]
    · rw [h2, bookAt_update]
      simp [oppList, hb]
  · have hopp2 : (bookAt books (stockOf o)).buy = [] := by
      simpa [oppList, hsl, show ("SELL" : String) ≠ "BUY" from by decide]
        using hopp
    have h1 := matchOrder_sell_trades ts books o hsl
    have h2 := matchOrder_sell_books ts books o hsl
    rw [hopp2, show sortDesc [] = [] from rfl, matchLoop_nil] at h1 h2
    dsimp only at h1 h2
    rw [if_pos hq] at h2
    refine ⟨h1, ?_, ?_⟩
    · rw [h2, bookAt_update]
      simp [ownList, hsl, show ("SELL" : String) ≠ "BUY" from by decide]
      rw [← hsl]
    · rw [h2, bookAt_update]
      simp [oppList, hsl, show ("SELL" : String) ≠ "BUY" from by decide]

/-- C7 witness: Sell 100 @ 50 into an empty book rests whole. -/
theorem c7_empty_opposite_rests_witness :
    (matchOrder ts0 emptyBooks ordA).1 = Except.ok [] ∧
      ownList "SELL" (bookAt (matchOrder ts0 emptyBooks ordA).2 "XYZ") =
        [ordA] := by
  have h := c7_empty_opposite_rests ts0 emptyBooks ordA (by decide) (by decide)
  refine ⟨h.1, ?_⟩
  have h2 := h.2.1
  simpa [stockOf, ordA, bookAt, emptyBooks, emptyBook, ownList] using h2

theorem matchOrder_buy_state (ts : Nat → Nat) (books : Books) (o : Order)
    (h : o.side = "BUY") :
    bookAt (matchOrder ts books o).2 (stockOf o) =
      (if 0 < (matchLoop (stockOf o) "BUY" o.price o.username ts 0 o.quantity
          (sortAsc (bookAt books (stockOf o)).sell)).2.1 then
        ⟨(bookAt books (stockOf o)).buy ++
            [{ o with quantity :=
              (matchLoop (stockOf o) "BUY" o.price o.username ts 0 o.quantity
                (sortAsc (bookAt books (stockOf o)).sell)).2.1 }],
          (matchLoop (stockOf o) "BUY" o.price o.username ts 0 o.quantity
            (sortAsc (bookAt books (stockOf o)).sell)).2.2⟩
      else
        ⟨(bookAt books (stockOf o)).buy,
          (matchLoop (stockOf o) "BUY" o.price o.username ts 0 o.quantity
            (sortAsc (bookAt books (stockOf o)).sell)).2.2⟩) := by
  rw [matchOrder_buy_books ts books o h, bookAt_update]

theorem matchOrder_sell_state (ts : Nat → Nat) (books : Books) (o : Order)
    (h : o.side = "SELL") :
    bookAt (matchOrder ts books o).2 (stockOf o) =
      (if 0 < (matchLoop (stockOf o) "SELL" o.price o.username ts 0 o.quantity
          (sortDesc (bookAt books (stockOf o)).buy)).2.1 then
        ⟨(matchLoop (stockOf o) "SELL" o.price o.username ts 0 o.quantity
            (sortDesc (bookAt books (stockOf o)).buy)).2.2,
          (bookAt books (stockOf o)).sell ++
            [{ o with quantity :=
              (matchLoop (stockOf o) "SELL" o.price o.username ts 0 o.quantity
                (sortDesc (bookAt books (stockOf o)).buy)).2.1 }]⟩
      else
        ⟨(matchLoop (stockOf o) "SELL" o.price o.username ts 0 o.quantity
            (sortDesc (bookAt books (stockOf o)).buy)).2.2,
          (bookAt books (stockOf o)).sell⟩) := by
  rw [matchOrder_sell_books ts books o h, bookAt_update]

theorem ordersQty_sortAsc (l : List Order) : ordersQty (sortAsc l) = ordersQty l := by
  unfold ordersQty sortAsc
  exact ((List.perm_insertionSort _ l).map Order.quantity).sum_eq

theorem ordersQty_sortDesc (l : List Order) : ordersQty (sortDesc l) = ordersQty l := by
  unfold ordersQty sortDesc
  exact ((List.perm_insertionSort _ l).map Order.quantity).sum_eq

/-- C5: quantity conservation.  For a valid incoming order the call
succeeds; the trades' total quantity equals the total quantity removed
from the opposite side of the book, and together with the residual
resting quantity (zero if nothing rests) it adds up to the incoming
order's original quantity. -/
theorem c5_quantity_conservation (ts : Nat → Nat) (books : Books) (o : Order)
    (hv : ValidOrder o) :
    ∃ trades books2, matchOrder ts books o = (Except.ok trades, books2) ∧
      ∃ rem, 0 ≤ rem ∧ tradesQty trades + rem = o.quantity ∧
        tradesQty trades =
          ordersQty (oppList o.side (bookAt books (stockOf o))) -
            ordersQty (oppList o.side (bookAt books2 (stockOf o))) ∧
        ((rem = 0 ∧ ownList o.side (bookAt books2 (stockOf o)) =
            ownList o.side (bookAt books (stockOf o))) ∨
          (0 < rem ∧ ownList o.side (bookAt books2 (stockOf o)) =
            ownList o.side (bookAt books (stockOf o)) ++
              [{ o with quantity := rem }])) := by
  obtain ⟨hside, hq, hp⟩ := hv
  rcases hside with hb | hsl
  · have h1 := matchOrder_buy_trades ts books o hb
    have h2 := matchOrder_buy_state ts books o hb
    have hcons := matchLoop_conserve (stockOf o) "BUY" o.price o.username ts 0
      o.quantity (sortAsc (bookAt books (stockOf o)).sell)
    have hnn := matchLoop_rem_nonneg (stockOf o) "BUY" o.price o.username ts 0
      o.quantity (sortAsc (bookAt books (stockOf o)).sell) hq.le
    refine ⟨(matchLoop (stockOf o) "BUY" o.price o.username ts 0 o.quantity
      (sortAsc (bookAt books (stockOf o)).sell)).1,
      (matchOrder ts books o).2, ?_, ?_⟩
    · rw [← h1]
    · refine ⟨_, hnn, hcons.1, ?_, ?_⟩
      · rw [h2]
        have hperm := ordersQty_sortAsc (bookAt books (stockOf o)).sell
        split
        · simp [oppList, hb]
          omega
        · simp [oppList, hb]
          omega
      · rw [h2]
        split
        · rename_i hpos
          right
          refine ⟨hpos, ?_⟩
          simp [ownList, hb]
        · rename_i hpos
          left
          refine ⟨by omega, ?_⟩
          simp [ownList, hb]
  · have h1 := matchOrder_sell_trades ts books o hsl
    have h2 := matchOrder_sell_state ts books o hsl
    have hcons := matchLoop_conserve (stockOf o) "SELL" o.price o.username ts 0
      o.quantity (sortDesc (bookAt books (stockOf o)).buy)
    have hnn := matchLoop_rem_nonneg (stockOf o) "SELL" o.price o.username ts 0
      o.quantity (sortDesc (bookAt books (stockOf o)).buy) hq.le
    have hne : ("SELL" : String) ≠ "BUY" := by decide
    refine ⟨(matchLoop (stockOf o) "SELL" o.price o.username ts 0 o.quantity
      (sortDesc (bookAt books (stockOf o)).buy)).1,
      (matchOrder ts books o).2, ?_, ?_⟩
    · rw [← h1]
    · refine ⟨_, hnn, hcons.1, ?_, ?_⟩
      · rw [h2]
        have hperm := ordersQty_sortDesc (bookAt books (stockOf o)).buy
        split
        · simp only [oppList, hsl]
          simp only [if_neg hne]
          omega
        · simp only [oppList, hsl]
          simp only [if_neg hne]
          omega

      · rw [h2]
        split
        · rename_i hpos
          right
          refine ⟨hpos, ?_⟩
          simp [ownList, hsl, hne]
        · rename_i hpos
          left
          refine ⟨by omega, ?_⟩
          simp [ownList, hsl, hne]

/-- C5 witness: Buy 60 @ 51 against the one-ask book of the scenario. -/
theorem c5_quantity_conservation_witness :
    ∃ trades books2, matchOrder ts0 scenStep1.2 ordB = (Except.ok trades, books2) ∧
      ∃ rem, 0 ≤ rem ∧ tradesQty trades + rem = ordB.quantity ∧
        tradesQty trades =
          ordersQty (oppList ordB.side (bookAt scenStep1.2 (stockOf ordB))) -
            ordersQty (oppList ordB.side (bookAt books2 (stockOf ordB))) ∧
        ((rem = 0 ∧ ownList ordB.side (bookAt books2 (stockOf ordB)) =
            ownList ordB.side (bookAt scenStep1.2 (stockOf ordB))) ∨
          (0 < rem ∧ ownList ordB.side (bookAt books2 (stockOf ordB)) =
            ownList ordB.side (bookAt scenStep1.2 (stockOf ordB)) ++
              [{ ordB with quantity := rem }])) :=
  c5_quantity_conservation ts0 scenStep1.2 ordB (by decide)

theorem mem_sortAsc (x : Order) (l : List Order) :
    x ∈ sortAsc l ↔ x ∈ l :=
  (List.perm_insertionSort _ l).mem_iff

theorem mem_sortDesc (x : Order) (l : List Order) :
    x ∈ sortDesc l ↔ x ∈ l :=
  (List.perm_insertionSort _ l).mem_iff

/-- C1 (corrected form): when the incoming side is BUY every trade
prices at the matched resting ask's price, but when the incoming side is
SELL every trade prices at the incoming (aggressor) order's own price. -/
theorem c1_trade_price (ts : Nat → Nat) (books : Books) (o : Order)
    (trades : List Trade) (books2 : Books)
    (h : matchOrder ts books o = (Except.ok trades, books2)) :
    ∀ t ∈ trades,
      (o.side = "BUY" → t.buyer = o.username ∧
        ∃ r ∈ (bookAt books (stockOf o)).sell,
          t.seller = r.username ∧ t.price = r.price) ∧
      (o.side = "SELL" → t.seller = o.username ∧ t.price = o.price ∧
        ∃ r ∈ (bookAt books (stockOf o)).buy, t.buyer = r.username) := by
  intro t ht
  constructor
  · intro hb
    have h1 := matchOrder_buy_trades ts books o hb
    rw [congrArg Prod.fst h] at h1
    have htr : trades = (matchLoop (stockOf o) "BUY" o.price o.username ts 0
        o.quantity (sortAsc (bookAt books (stockOf o)).sell)).1 :=
      Except.ok.inj h1
    rw [htr] at ht
    obtain ⟨y, hy, hbuyer, hseller, hprice, hstock⟩ :=
      matchLoop_trades_src (stockOf o) "BUY" o.price o.username ts 0
        o.quantity (sortAsc (bookAt books (stockOf o)).sell) t ht
    simp only [if_pos rfl] at hbuyer hseller hprice
    exact ⟨hbuyer, y, (mem_sortAsc y _).1 hy, hseller, hprice⟩
  · intro hsl
    have h1 := matchOrder_sell_trades ts books o hsl
    rw [congrArg Prod.fst h] at h1
    have htr : trades = (matchLoop (stockOf o) "SELL" o.price o.username ts 0
        o.quantity (sortDesc (bookAt books (stockOf o)).buy)).1 :=
      Except.ok.inj h1
    rw [htr] at ht
    obtain ⟨y, hy, hbuyer, hseller, hprice, hstock⟩ :=
      matchLoop_trades_src (stockOf o) "SELL" o.price o.username ts 0
        o.quantity (sortDesc (bookAt books (stockOf o)).buy) t ht
    have hne : ("SELL" : String) ≠ "BUY" := by decide
    simp only [if_neg hne] at hbuyer hseller hprice
    exact ⟨hseller, hprice, y, (mem_sortDesc y _).1 hy, hbuyer⟩

/-- C1 counterexample: the sell aggressor D at 48 against the resting
bid C at 49 trades at 48, the aggressor's price, although the resting
order's price is 49. -/
theorem c1_counterexample :
    (matchOrder ts0 c1Books c1Sell).1 =
      Except.ok [⟨"XYZ", "C", "D", 48, 40, 0⟩] ∧
      (bookAt c1Books "XYZ").buy = [⟨"C", some "XYZ", "BUY", 50, 49, ""⟩] ∧
      (48 : Rat) ≠ 49 := by
  refine ⟨?_, ?_, by norm_num⟩
  · norm_num [c1Books, c1Sell, matchOrder, sortAsc, sortDesc, matchLoop_nil,
      matchLoop_cons_stop, matchLoop_cons_noCross, matchLoop_cons_fill,
      matchLoop_cons_reduce, priceMatchB, listFor, setList, updateBooks,
      emptyBooks, emptyBook, mkTrade, beq_iff_eq, ts0,
      List.insertionSort, List.orderedInsert,
      show ("SELL" : String) ≠ "BUY" from by decide,
      show ("BUY" : String) ≠ "SELL" from by decide]
  · simp [bookAt, c1Books, updateBooks]

/-- C1 witness: the corrected rule instantiated at the concrete sell:
the trade prices at the aggressor's price and names it as seller. -/
theorem c1_trade_price_witness :
    (⟨"XYZ", "C", "D", 48, 40, 0⟩ : Trade).seller = c1Sell.username ∧
      (⟨"XYZ", "C", "D", 48, 40, 0⟩ : Trade).price = c1Sell.price := by
  have hpair : matchOrder ts0 c1Books c1Sell =
      (Except.ok [⟨"XYZ", "C", "D", 48, 40, 0⟩],
        (matchOrder ts0 c1Books c1Sell).2) := by
    have h1 : (matchOrder ts0 c1Books c1Sell).1 =
        Except.ok [⟨"XYZ", "C", "D", 48, 40, 0⟩] := by
      norm_num [c1Books, c1Sell, matchOrder, sortAsc, sortDesc, matchLoop_nil,
        matchLoop_cons_stop, matchLoop_cons_noCross, matchLoop_cons_fill,
        matchLoop_cons_reduce, priceMatchB, listFor, setList, updateBooks,
        emptyBooks, emptyBook, mkTrade, beq_iff_eq, ts0,
        List.insertionSort, List.orderedInsert,
        show ("SELL" : String) ≠ "BUY" from by decide,
        show ("BUY" : String) ≠ "SELL" from by decide]
    rw [← h1]
  have h := (c1_trade_price ts0 c1Books c1Sell
      [⟨"XYZ", "C", "D", 48, 40, 0⟩] (matchOrder ts0 c1Books c1Sell).2 hpair
      ⟨"XYZ", "C", "D", 48, 40, 0⟩ (by simp)).2 rfl
  exact ⟨h.1, h.2.1⟩

theorem matchOrder_nonbuy_eq (ts : Nat → Nat) (books : Books) (o : Order)
    (h : o.side ≠ "BUY") :
    matchOrder ts books o =
      (let books1 := if (books (stockOf o)).isSome then books
        else updateBooks books (stockOf o) emptyBook
      let book := bookAt books1 (stockOf o)
      let res := matchLoop (stockOf o) o.side o.price o.username ts 0
        o.quantity (sortDesc book.buy)
      if 0 < res.2.1 then
        match listFor ⟨res.2.2, book.sell⟩ o.side with
        | none => (Except.error ExchangeError.keyError,
            updateBooks books1 (stockOf o) ⟨res.2.2, book.sell⟩)
        | some own => (Except.ok res.1, updateBooks books1 (stockOf o)
            (setList ⟨res.2.2, book.sell⟩ o.side
              (own ++ [{ o with quantity := res.2.1 }])))
      else (Except.ok res.1,
        updateBooks books1 (stockOf o) ⟨res.2.2, book.sell⟩)) := by
  unfold matchOrder stockOf bookAt
  simp only [if_neg h]
  simp

/-- C9 (corrected): with the `datetime.now()` calls modelled as an
explicit clock, two runs on the same book and order agree on the
resulting registry and on every trade field except the timestamp. -/
theorem c9_deterministic_modulo_timestamp (tsa tsb : Nat → Nat)
    (books : Books) (o : Order) :
    (matchOrder tsa books o).2 = (matchOrder tsb books o).2 ∧
      Except.map (List.map scrubTrade) (matchOrder tsa books o).1 =
        Except.map (List.map scrubTrade) (matchOrder tsb books o).1 := by
  by_cases hb : o.side = "BUY"
  · rw [matchOrder_buy_eq tsa books o hb, matchOrder_buy_eq tsb books o hb]
    dsimp only
    rw [bookAt_init]
    obtain ⟨hmap, hsnd⟩ := matchLoop_clock (stockOf o) "BUY" o.price
      o.username tsa 0 o.quantity
      (sortAsc (bookAt books (stockOf o)).sell) tsb 0
    rw [hsnd]
    constructor
    · repeat' split
      all_goals rfl
    · repeat' split
      all_goals first
      | rfl
      | simpa [Except.map] using hmap
  · rw [matchOrder_nonbuy_eq tsa books o hb, matchOrder_nonbuy_eq tsb books o hb]
    dsimp only
    rw [bookAt_init]
    obtain ⟨hmap, hsnd⟩ := matchLoop_clock (stockOf o) o.side o.price
      o.username tsa 0 o.quantity
      (sortDesc (bookAt books (stockOf o)).buy) tsb 0
    rw [hsnd]
    constructor
    · repeat' split
      all_goals rfl
    · repeat' split
      all_goals first
      | rfl
      | simpa [Except.map] using hmap

/-- C9 counterexample: with two different wall clocks the same
submission yields trade lists differing in their timestamps, so runs at
different instants are not identical as the claim demands. -/
theorem c9_counterexample :
    (matchOrder ts0 c9Books c9Buy).1 ≠ (matchOrder ts1 c9Books c9Buy).1 := by
  have h0 : (matchOrder ts0 c9Books c9Buy).1 =
      Except.ok [⟨"XYZ", "B", "A", 10, 5, 0⟩] := by
    norm_num [c9Books, c9Buy, matchOrder, sortAsc, sortDesc, matchLoop_nil,
      matchLoop_cons_stop, matchLoop_cons_noCross, matchLoop_cons_fill,
      matchLoop_cons_reduce, priceMatchB, listFor, setList, updateBooks,
      emptyBooks, emptyBook, mkTrade, beq_iff_eq, ts0,
      List.insertionSort, List.orderedInsert,
      show ("SELL" : String) ≠ "BUY" from by decide,
      show ("BUY" : String) ≠ "SELL" from by decide]
  have h1 : (matchOrder ts1 c9Books c9Buy).1 =
      Except.ok [⟨"XYZ", "B", "A", 10, 5, 1⟩] := by
    norm_num [c9Books, c9Buy, matchOrder, sortAsc, sortDesc, matchLoop_nil,
      matchLoop_cons_stop, matchLoop_cons_noCross, matchLoop_cons_fill,
      matchLoop_cons_reduce, priceMatchB, listFor, setList, updateBooks,
      emptyBooks, emptyBook, mkTrade, beq_iff_eq, ts1,
      List.insertionSort, List.orderedInsert,
      show ("SELL" : String) ≠ "BUY" from by decide,
      show ("BUY" : String) ≠ "SELL" from by decide]
  rw [h0, h1]
  simp

/-- C10: an order carrying no stock field is not rejected; it is matched
against and, when unfilled, rested in the book for the default
instrument XYZ, with the same trades, the same error behaviour and the
same books (up to the stock field stored inside the resting record,
which the matching core never reads) as the same order with
stock = "XYZ" spelled out. -/
theorem c10_default_stock (ts : Nat → Nat) (books : Books) (o : Order)
    (h : o.stock = none) :
    (matchOrder ts books o).1 =
      (matchOrder ts books { o with stock := some "XYZ" }).1 ∧
      eraseStockBooks (matchOrder ts books o).2 =
        eraseStockBooks (matchOrder ts books { o with stock := some "XYZ" }).2 := by
  have hstock : stockOf o = "XYZ" := by simp [stockOf, h]
  have hstock2 : stockOf { o with stock := some "XYZ" } = "XYZ" := by
    simp [stockOf]
  by_cases hb : o.side = "BUY"
  · rw [matchOrder_buy_eq ts books o hb,
      matchOrder_buy_eq ts books { o with stock := some "XYZ" } hb]
    dsimp only
    rw [hstock, hstock2]
    constructor
    · repeat' split
      all_goals rfl
    · repeat' split
      all_goals first
      | rfl
      | (refine funext fun s => ?_
         by_cases hxyz : s = "XYZ" <;>
           simp [eraseStockBooks, updateBooks, eraseStockBook, eraseStock,
             setList, hxyz, hb])
  · rw [matchOrder_nonbuy_eq ts books o hb,
      matchOrder_nonbuy_eq ts books { o with stock := some "XYZ" } hb]
    dsimp only
    rw [hstock, hstock2]
    constructor
    · repeat' split
      all_goals rfl
    · repeat' split
      all_goals first
      | rfl
      | (refine funext fun s => ?_
         by_cases hxyz : s = "XYZ" <;>
           simp [eraseStockBooks, updateBooks, eraseStockBook, eraseStock,
             setList, hxyz, hb])

/-- C10 witness: a stockless buy is routed to the XYZ book. -/
theorem c10_default_stock_witness :
    (matchOrder ts0 emptyBooks c10NoStock).1 =
      (matchOrder ts0 emptyBooks { c10NoStock with stock := some "XYZ" }).1 ∧
      eraseStockBooks (matchOrder ts0 emptyBooks c10NoStock).2 =
        eraseStockBooks
          (matchOrder ts0 emptyBooks
            { c10NoStock with stock := some "XYZ" }).2 :=
  c10_default_stock ts0 emptyBooks c10NoStock rfl

theorem priceMatchB_invalid (side : String) (p : Rat) (e : Order)
    (h1 : side ≠ "BUY") (h2 : side ≠ "SELL") :
    priceMatchB side p e = false := by
  simp [priceMatchB, h1, h2]

theorem matchLoop_all_noCross (stock side : String) (p : Rat) (u : String)
    (ts : Nat → Nat) (k : Nat) (rem : Int) (l : List Order)
    (h : ∀ e : Order, priceMatchB side p e = false) :
    matchLoop stock side p u ts k rem l = ([], rem, l) := by
  cases l with
  | nil => exact matchLoop_nil stock side p u ts k rem
  | cons e rest =>
    by_cases hrem : 0 < rem
    · exact matchLoop_cons_noCross stock side p u ts k rem e rest hrem
        (by simp [h e])
    · exact matchLoop_cons_stop stock side p u ts k rem e rest hrem

theorem matchLoop_noRem (stock side : String) (p : Rat) (u : String)
    (ts : Nat → Nat) (k : Nat) (rem : Int) (l : List Order)
    (h : rem ≤ 0) :
    matchLoop stock side p u ts k rem l = ([], rem, l) := by
  cases l with
  | nil => exact matchLoop_nil stock side p u ts k rem
  | cons e rest =>
    exact matchLoop_cons_stop stock side p u ts k rem e rest (by omega)

/-- C2 (corrected): the code has no semantic validation and no
`InvalidOrderError`.  An order whose side is neither BUY nor SELL and
whose quantity is positive dies with an uncaught `KeyError`; an order
with non-positive quantity is accepted silently, produces no trades,
rests nothing — yet the registry still gains an (empty) book for a
previously unseen instrument and the opposite side list is re-sorted. -/
theorem c2_no_validation (ts : Nat → Nat) (books : Books) (o : Order) :
    (o.side ≠ "BUY" → o.side ≠ "SELL" → 0 < o.quantity →
      (matchOrder ts books o).1 = Except.error ExchangeError.keyError) ∧
    (o.quantity ≤ 0 →
      (matchOrder ts books o).1 = Except.ok [] ∧
      (matchOrder ts books o).2 (stockOf o) =
        some (if o.side = "BUY" then
          { bookAt books (stockOf o) with
              sell := sortAsc (bookAt books (stockOf o)).sell }
        else
          { bookAt books (stockOf o) with
              buy := sortDesc (bookAt books (stockOf o)).buy }) ∧
      ∀ s, s ≠ stockOf o → (matchOrder ts books o).2 s = books s) := by
  constructor
  · intro ha hb hq
    rw [matchOrder_nonbuy_eq ts books o ha]
    dsimp only
    rw [bookAt_init,
      matchLoop_all_noCross (stockOf o) o.side o.price o.username ts 0
        o.quantity (sortDesc (bookAt books (stockOf o)).buy)
        (fun e => priceMatchB_invalid o.side o.price e ha hb)]
    dsimp only
    rw [if_pos hq]
    simp [listFor, ha, hb]
  · intro hq
    by_cases hb : o.side = "BUY"
    · rw [matchOrder_buy_eq ts books o hb]
      dsimp only
      rw [bookAt_init,
        matchLoop_noRem (stockOf o) "BUY" o.price o.username ts 0
          o.quantity (sortAsc (bookAt books (stockOf o)).sell) hq]
      dsimp only
      rw [if_neg (by omega)]
      refine ⟨rfl, ?_, ?_⟩
      · rw [if_pos hb]
        simp [updateBooks]
      · intro s hs
        simp only [updateBooks, if_neg hs]
        split
        · rfl
        · simp [updateBooks, hs]
    · rw [matchOrder_nonbuy_eq ts books o hb]
      dsimp only
      rw [bookAt_init,
        matchLoop_noRem (stockOf o) o.side o.price o.username ts 0
          o.quantity (sortDesc (bookAt books (stockOf o)).buy) hq]
      dsimp only
      rw [if_neg (by omega)]
      refine ⟨rfl, ?_, ?_⟩
      · rw [if_neg hb]
        simp [updateBooks]
      · intro s hs
        simp only [updateBooks, if_neg hs]
        split
        · rfl
        · simp [updateBooks, hs]

/-- C2 counterexample: the quantity-0 order for the unseen instrument
ABC is not rejected with any error (no `InvalidOrderError` exists), and
the registry is mutated: ABC gains an empty book.  A positive-quantity
order with side "HOLD" raises `KeyError`, not `InvalidOrderError`. -/
theorem c2_counterexample :
    (matchOrder ts0 emptyBooks c2ZeroQty).1 = Except.ok [] ∧
      emptyBooks "ABC" = none ∧
      (matchOrder ts0 emptyBooks c2ZeroQty).2 "ABC" = some emptyBook ∧
      (matchOrder ts0 emptyBooks c2BadSide).1 =
        Except.error ExchangeError.keyError := by
  refine ⟨?_, rfl, ?_, ?_⟩
  · norm_num [c2ZeroQty, matchOrder, sortAsc, sortDesc, matchLoop_nil,
      matchLoop_cons_stop, matchLoop_cons_noCross, matchLoop_cons_fill,
      matchLoop_cons_reduce, priceMatchB, listFor, setList, updateBooks,
      emptyBooks, emptyBook, mkTrade, beq_iff_eq,
      List.insertionSort, List.orderedInsert,
      show ("SELL" : String) ≠ "BUY" from by decide,
      show ("BUY" : String) ≠ "SELL" from by decide]
  · norm_num [c2ZeroQty, matchOrder, sortAsc, sortDesc, matchLoop_nil,
      matchLoop_cons_stop, matchLoop_cons_noCross, matchLoop_cons_fill,
      matchLoop_cons_reduce, priceMatchB, listFor, setList, updateBooks,
      emptyBooks, emptyBook, mkTrade, beq_iff_eq,
      List.insertionSort, List.orderedInsert,
      show ("SELL" : String) ≠ "BUY" from by decide,
      show ("BUY" : String) ≠ "SELL" from by decide]
  · norm_num [c2BadSide, matchOrder, sortAsc, sortDesc, matchLoop_nil,
      matchLoop_cons_stop, matchLoop_cons_noCross, matchLoop_cons_fill,
      matchLoop_cons_reduce, priceMatchB, listFor, setList, updateBooks,
      emptyBooks, emptyBook, mkTrade, beq_iff_eq,
      List.insertionSort, List.orderedInsert,
      show ("HOLD" : String) ≠ "BUY" from by decide,
      show ("HOLD" : String) ≠ "SELL" from by decide,
      show ("SELL" : String) ≠ "BUY" from by decide,
      show ("BUY" : String) ≠ "SELL" from by decide]

/-- C2 witness: the corrected behaviour instantiated at the two
concrete invalid orders. -/
theorem c2_no_validation_witness :
    (matchOrder ts0 emptyBooks c2BadSide).1 =
        Except.error ExchangeError.keyError ∧
      (matchOrder ts0 emptyBooks c2ZeroQty).1 = Except.ok [] :=
  ⟨(c2_no_validation ts0 emptyBooks c2BadSide).1 (by decide) (by decide)
      (by decide),
    ((c2_no_validation ts0 emptyBooks c2ZeroQty).2 (by decide)).1⟩

/-- C6 counterexample: the fourth scenario submission (Sell 40 @ 48 by D
against the resting bid 50 @ 49 by C) produces a trade priced 48, not
the 49 the claim demands. -/
theorem c6_counterexample :
    scenStep4.1 = Except.ok [⟨"XYZ", "C", "D", 48, 40, 0⟩] ∧
      (⟨"XYZ", "C", "D", 48, 40, 0⟩ : Trade).price ≠ 49 :=
  ⟨scenT4, by norm_num⟩

/-- C6 (corrected): the four-submission scenario runs exactly as the
claim says except for the fourth trade's price, which is 48.0 (the
aggressor's price), and the resting ask 40 @ 50 from step 2 stays in the
book throughout. -/
theorem c6_scenario :
    scenStep1.1 = Except.ok [] ∧
      bookAt scenStep1.2 "XYZ" = ⟨[], [ordA]⟩ ∧
      scenStep2.1 = Except.ok [⟨"XYZ", "B", "A", 50, 60, 0⟩] ∧
      bookAt scenStep2.2 "XYZ" = ⟨[], [{ ordA with quantity := 40 }]⟩ ∧
      scenStep3.1 = Except.ok [] ∧
      bookAt scenStep3.2 "XYZ" = ⟨[ordC], [{ ordA with quantity := 40 }]⟩ ∧
      scenStep4.1 = Except.ok [⟨"XYZ", "C", "D", 48, 40, 0⟩] ∧
      bookAt scenStep4.2 "XYZ" =
        ⟨[{ ordC with quantity := 10 }], [{ ordA with quantity := 40 }]⟩ := by
  refine ⟨scenT1, ?_, scenT2, ?_, scenT3, ?_, scenT4, ?_⟩
  · rw [bookAt, scenB1]
    simp [ordA]
  · rw [bookAt, scenB2]
    simp [ordA]
  · rw [bookAt, scenB3]
    simp [ordA, ordC]
  · rw [bookAt, scenB4]
    simp [ordA, ordC]

theorem sortAsc_pairwise (l : List Order) :
    (sortAsc l).Pairwise fun a b => a.price ≤ b.price := by
  haveI : IsTotal Order fun a b => a.price ≤ b.price := ⟨fun a b => le_total _ _⟩
  haveI : IsTrans Order fun a b => a.price ≤ b.price :=
    ⟨fun a b c h1 h2 => le_trans h1 h2⟩
  exact List.sorted_insertionSort _ l

theorem sortDesc_pairwise (l : List Order) :
    (sortDesc l).Pairwise fun a b => b.price ≤ a.price := by
  haveI : IsTotal Order fun a b : Order => b.price ≤ a.price :=
    ⟨fun a b => le_total _ _⟩
  haveI : IsTrans Order fun a b : Order => b.price ≤ a.price :=
    ⟨fun a b c h1 h2 => le_trans h2 h1⟩
  exact List.sorted_insertionSort _ l

theorem priceMatchB_buy (p : Rat) (x : Order) :
    priceMatchB "BUY" p x = decide (x.price ≤ p) := by
  simp [priceMatchB, ge_iff_le]

theorem priceMatchB_sell (p : Rat) (x : Order) :
    priceMatchB "SELL" p x = decide (p ≤ x.price) := by
  simp [priceMatchB]

theorem sortAsc_buy_propagate (p : Rat) (l : List Order) :
    (sortAsc l).Pairwise fun a b =>
      priceMatchB "BUY" p b = true → priceMatchB "BUY" p a = true := by
  refine (sortAsc_pairwise l).imp ?_
  intro a b hab hb
  rw [priceMatchB_buy] at hb ⊢
  simp only [decide_eq_true_eq] at hb ⊢
  exact le_trans hab hb

theorem sortDesc_sell_propagate (p : Rat) (l : List Order) :
    (sortDesc l).Pairwise fun a b =>
      priceMatchB "SELL" p b = true → priceMatchB "SELL" p a = true := by
  refine (sortDesc_pairwise l).imp ?_
  intro a b hab hb
  rw [priceMatchB_sell] at hb ⊢
  simp only [decide_eq_true_eq] at hb ⊢
  exact le_trans hb hab

theorem goodBook_emptyBook : GoodBook emptyBook := by
  refine ⟨?_, ?_, ?_⟩ <;> intro x hx <;> cases hx

theorem goodBook_bookAt (books : Books) (h : GoodBooks books) (s : String) :
    GoodBook (bookAt books s) := by
  rcases hb : books s with _ | b
  · simpa [bookAt, hb] using goodBook_emptyBook
  · simpa [bookAt, hb] using h s b hb

/-- One valid submission preserves the book invariants. -/
theorem matchOrder_good (ts : Nat → Nat) (books : Books) (o : Order)
    (hg : GoodBooks books) (hv : ValidOrder o) :
    GoodBooks (matchOrder ts books o).2 := by
  obtain ⟨hside, hq, hp⟩ := hv
  intro s b hsb
  by_cases hs : s = stockOf o
  · subst hs
    obtain ⟨hposBuy, hposSell, hcross⟩ := goodBook_bookAt books hg (stockOf o)
    rcases hside with hb | hsl
    · rw [matchOrder_buy_books ts books o hb] at hsb
      simp only [updateBooks, eq_self_iff_true, if_true, Option.some.injEq]
        at hsb
      subst hsb
      have hposL : PosQty (sortAsc (bookAt books (stockOf o)).sell) :=
        fun x hx => hposSell x ((mem_sortAsc x _).1 hx)
      have hposOut := matchLoop_pos (stockOf o) "BUY" o.price o.username ts 0
        o.quantity _ hposL
      have hmemOut := matchLoop_mem (stockOf o) "BUY" o.price o.username ts 0
        o.quantity (sortAsc (bookAt books (stockOf o)).sell)
      split
      · rename_i hpos
        refine ⟨?_, hposOut, ?_⟩
        · intro x hx
          rcases List.mem_append.1 hx with hx1 | hx2
          · exact hposBuy x hx1
          · rw [List.mem_singleton.1 hx2]
            exact hpos
        · intro x hx y hy
          obtain ⟨y0, hy0, hyeq, _⟩ := hmemOut y hy
          have hyprice : y.price = y0.price := by rw [hyeq]
          rcases List.mem_append.1 hx with hx1 | hx2
          · rw [hyprice]
            exact hcross x hx1 y0 ((mem_sortAsc y0 _).1 hy0)
          · rw [List.mem_singleton.1 hx2]
            have hnc := matchLoop_noCross (stockOf o) "BUY" o.price o.username
              ts 0 o.quantity (sortAsc (bookAt books (stockOf o)).sell)
              (sortAsc_buy_propagate o.price _) hpos y hy
            rw [priceMatchB_buy] at hnc
            simp only [decide_eq_false_iff_not, not_le] at hnc
            exact hnc
      · exact ⟨hposBuy, hposOut, fun x hx y hy => by
          obtain ⟨y0, hy0, hyeq, _⟩ := hmemOut y hy
          have hyprice : y.price = y0.price := by rw [hyeq]
          rw [hyprice]
          exact hcross x hx y0 ((mem_sortAsc y0 _).1 hy0)⟩
    · rw [matchOrder_sell_books ts books o hsl] at hsb
      simp only [updateBooks, eq_self_iff_true, if_true, Option.some.injEq]
        at hsb
      subst hsb
      have hposL : PosQty (sortDesc (bookAt books (stockOf o)).buy) :=
        fun x hx => hposBuy x ((mem_sortDesc x _).1 hx)
      have hposOut := matchLoop_pos (stockOf o) "SELL" o.price o.username ts 0
        o.quantity _ hposL
      have hmemOut := matchLoop_mem (stockOf o) "SELL" o.price o.username ts 0
        o.quantity (sortDesc (bookAt books (stockOf o)).buy)
      split
      · rename_i hpos
        refine ⟨hposOut, ?_, ?_⟩
        · intro y hy
          rcases List.mem_append.1 hy with hy1 | hy2
          · exact hposSell y hy1
          · rw [List.mem_singleton.1 hy2]
            exact hpos
        · intro x hx y hy
          obtain ⟨x0, hx0, hxeq, _⟩ := hmemOut x hx
          have hxprice : x.price = x0.price := by rw [hxeq]
          rcases List.mem_append.1 hy with hy1 | hy2
          · rw [hxprice]
            exact hcross x0 ((mem_sortDesc x0 _).1 hx0) y hy1
          · rw [List.mem_singleton.1 hy2]
            have hnc := matchLoop_noCross (stockOf o) "SELL" o.price o.username
              ts 0 o.quantity (sortDesc (bookAt books (stockOf o)).buy)
              (sortDesc_sell_propagate o.price _) hpos x hx
            rw [priceMatchB_sell] at hnc
            simp only [decide_eq_false_iff_not, not_le] at hnc
            exact hnc
      · exact ⟨hposOut, hposSell, fun x hx y hy => by
          obtain ⟨x0, hx0, hxeq, _⟩ := hmemOut x hx
          have hxprice : x.price = x0.price := by rw [hxeq]
          rw [hxprice]
          exact hcross x0 ((mem_sortDesc x0 _).1 hx0) y hy⟩
  · rw [matchOrder_other ts books o s hs] at hsb
    exact hg s b hsb

theorem foldl_good (ts : Nat → Nat) :
    ∀ (orders : List Order) (books : Books), GoodBooks books →
      (∀ o ∈ orders, ValidOrder o) →
      GoodBooks (orders.foldl (fun bs o => (matchOrder ts bs o).2) books) := by
  intro orders
  induction orders with
  | nil => intro books hg _; exact hg
  | cons o rest ih =>
    intro books hg hv
    exact ih (matchOrder ts books o).2
      (matchOrder_good ts books o hg (hv o (List.mem_cons_self o rest)))
      (fun x hx => hv x (List.mem_cons_of_mem o hx))

theorem submitAll_good (ts : Nat → Nat) (orders : List Order)
    (hv : ∀ o ∈ orders, ValidOrder o) : GoodBooks (submitAll ts orders) :=
  foldl_good ts orders emptyBooks (fun s b hsb => by cases hsb) hv

/-- C3: after any sequence of valid submissions starting from an empty
registry, every registered book has its best (highest) bid price, when a
bid exists, strictly below its best (lowest) ask price, when an ask
exists. -/
theorem c3_no_crossed_book (ts : Nat → Nat) (orders : List Order)
    (hv : ∀ o ∈ orders, ValidOrder o) :
    ∀ s b, submitAll ts orders s = some b →
      ∀ pb pa, bestBid b = some pb → bestAsk b = some pa → pb < pa := by
  intro s b hsb pb pa hpb hpa
  obtain ⟨_, _, hcross⟩ := submitAll_good ts orders hv s b hsb
  have hpb2 : pb ∈ b.buy.map Order.price :=
    List.max?_mem (fun a c => max_choice a c) hpb
  have hpa2 : pa ∈ b.sell.map Order.price :=
    List.min?_mem (fun a c => min_choice a c) hpa
  obtain ⟨x, hx, hxe⟩ := List.mem_map.1 hpb2
  obtain ⟨y, hy, hye⟩ := List.mem_map.1 hpa2
  rw [← hxe, ← hye]
  exact hcross x hx y hy

/-- C3 witness: the scenario's final XYZ book has best bid 49 and best
ask 50, and 49 < 50. -/
theorem c3_no_crossed_book_witness : (49 : Rat) < 50 := by
  have hsub : submitAll ts0 [ordA, ordB, ordC, ordD] = scenStep4.2 := rfl
  have hbook : submitAll ts0 [ordA, ordB, ordC, ordD] "XYZ" =
      some ⟨[⟨"C", some "XYZ", "BUY", 10, 49, ""⟩],
        [⟨"A", some "XYZ", "SELL", 40, 50, ""⟩]⟩ := by
    rw [hsub]
    exact scenB4
  exact c3_no_crossed_book ts0 [ordA, ordB, ordC, ordD] (by decide) "XYZ" _
    hbook 49 50 rfl rfl

/-- C8: after any sequence of valid submissions, every order resting on
either side of any registered book has strictly positive quantity — an
order filled down to quantity zero is no longer in the book when
`match_order` returns. -/
theorem c8_resting_quantity_positive (ts : Nat → Nat) (orders : List Order)
    (hv : ∀ o ∈ orders, ValidOrder o) :
    ∀ s b, submitAll ts orders s = some b →
      ∀ x ∈ b.buy ++ b.sell, 0 < x.quantity := by
  intro s b hsb x hx
  obtain ⟨hbuy, hsell, _⟩ := submitAll_good ts orders hv s b hsb
  rcases List.mem_append.1 hx with hx1 | hx2
  · exact hbuy x hx1
  · exact hsell x hx2

/-- C8 witness: both residual orders of the scenario rest with positive
quantity. -/
theorem c8_resting_quantity_positive_witness :
    (0 : Int) < 10 ∧ (0 : Int) < 40 := by
  have hsub : submitAll ts0 [ordA, ordB, ordC, ordD] = scenStep4.2 := rfl
  have hbook : submitAll ts0 [ordA, ordB, ordC, ordD] "XYZ" =
      some ⟨[⟨"C", some "XYZ", "BUY", 10, 49, ""⟩],
        [⟨"A", some "XYZ", "SELL", 40, 50, ""⟩]⟩ := by
    rw [hsub]
    exact scenB4
  constructor
  · exact c8_resting_quantity_positive ts0 [ordA, ordB, ordC, ordD]
      (by decide) "XYZ" _ hbook ⟨"C", some "XYZ", "BUY", 10, 49, ""⟩
      (by simp)
  · exact c8_resting_quantity_positive ts0 [ordA, ordB, ordC, ordD]
      (by decide) "XYZ" _ hbook ⟨"A", some "XYZ", "SELL", 40, 50, ""⟩
      (by simp)

theorem filter_price_orderedInsert (r : Order → Order → Prop)
    [DecidableRel r] (hr : ∀ a b : Order, a.price = b.price → r a b)
    (q : Rat) (a : Order) (l : List Order) :
    (List.orderedInsert r a l).filter (fun x => decide (x.price = q)) =
      if a.price = q then
        a :: l.filter (fun x => decide (x.price = q))
      else l.filter (fun x => decide (x.price = q)) := by
  induction l with
  | nil =>
    by_cases ha : a.price = q <;>
      simp [List.orderedInsert, List.filter, ha]
  | cons b l ih =>
    rw [List.orderedInsert]
    by_cases hab : r a b
    · rw [if_pos hab]
      by_cases ha : a.price = q <;> simp [List.filter_cons, ha]
    · rw [if_neg hab]
      have hba : a.price ≠ b.price := fun h => hab (hr a b h)
      by_cases ha : a.price = q
      · have hb : ¬ b.price = q := fun h => hba (by rw [ha, h])
        simp [List.filter_cons, ih, ha, hb]
      · simp [List.filter_cons, ih, ha]

theorem filter_price_insertionSort (r : Order → Order → Prop)
    [DecidableRel r] (hr : ∀ a b : Order, a.price = b.price → r a b)
    (q : Rat) (l : List Order) :
    (List.insertionSort r l).filter (fun x => decide (x.price = q)) =
      l.filter (fun x => decide (x.price = q)) := by
  induction l with
  | nil => rfl
  | cons a l ih =>
    rw [List.insertionSort, filter_price_orderedInsert r hr q a _]
    by_cases ha : a.price = q <;> simp [List.filter_cons, ha, ih]

theorem decomp_of_filter (q : Order → Bool) (x y : Order) :
    ∀ (xs as bs : List Order), xs.filter q = as ++ x :: bs →
      xs.count x = 1 → y ∈ bs →
      ∃ cs ds, xs = cs ++ x :: ds ∧ y ∈ ds := by
  intro xs
  induction xs with
  | nil =>
    intro as bs h _ _
    rw [List.filter_nil] at h
    exact absurd h.symm (List.append_ne_nil_of_right_ne_nil as (by simp))
  | cons z zs ih =>
    intro as bs h hc hy
    have hqx : q x = true := by
      have hmem : x ∈ List.filter q (z :: zs) := by
        rw [h]
        exact List.mem_append_right as (List.mem_cons_self x bs)
      exact (List.mem_filter.1 hmem).2
    by_cases hqz : q z = true
    · rw [List.filter_cons_of_pos hqz] at h
      cases as with
      | nil =>
        rw [List.nil_append] at h
        injection h with h1 h2
        refine ⟨[], zs, by rw [h1, List.nil_append], ?_⟩
        have hyf : y ∈ List.filter q zs := by rw [h2]; exact hy
        exact List.mem_of_mem_filter hyf
      | cons a as2 =>
        rw [List.cons_append] at h
        injection h with h1 h2
        have hxzs : x ∈ zs := by
          have hxf : x ∈ List.filter q zs := by
            rw [h2]
            exact List.mem_append_right as2 (List.mem_cons_self x bs)
          exact List.mem_of_mem_filter hxf
        have hzx : ¬ z = x := by
          intro he
          rw [List.count_cons] at hc
          have hpos : 0 < zs.count x := List.count_pos_iff.2 hxzs
          simp [he] at hc
          omega
        have hc2 : zs.count x = 1 := by
          rw [List.count_cons] at hc
          simpa [hzx] using hc
        obtain ⟨cs, ds, hzs, hyds⟩ := ih as2 bs h2 hc2 hy
        exact ⟨z :: cs, ds, by rw [List.cons_append, hzs], hyds⟩
    · rw [List.filter_cons_of_neg (by simpa using hqz)] at h
      have hzx : ¬ z = x := fun he => hqz (he ▸ hqx)
      have hc2 : zs.count x = 1 := by
        rw [List.count_cons] at hc
        simpa [hzx] using hc
      obtain ⟨cs, ds, hzs, hyds⟩ := ih as bs h hc2 hy
      exact ⟨z :: cs, ds, by rw [List.cons_append, hzs], hyds⟩

theorem sort_decomp (r : Order → Order → Prop) [DecidableRel r]
    (hr : ∀ a b : Order, a.price = b.price → r a b)
    (l l1 l2 l3 : List Order) (o1 o2 : Order)
    (hl : l = l1 ++ o1 :: l2 ++ o2 :: l3)
    (hp : o1.price = o2.price)
    (hc : l.count o1 = 1) :
    ∃ cs ds, List.insertionSort r l = cs ++ o1 :: ds ∧ o2 ∈ ds := by
  have hfil := filter_price_insertionSort r hr o1.price l
  have hfil2 : l.filter (fun x => decide (x.price = o1.price)) =
      (l1.filter (fun x => decide (x.price = o1.price))) ++ o1 ::
        (l2.filter (fun x => decide (x.price = o1.price)) ++ o2 ::
          l3.filter (fun x => decide (x.price = o1.price))) := by
    rw [hl]
    simp [List.filter_append, List.filter_cons, hp.symm]
  have hcount : (List.insertionSort r l).count o1 = 1 := by
    rw [(List.perm_insertionSort r l).count_eq]
    exact hc
  exact decomp_of_filter (fun x => decide (x.price = o1.price)) o1 o2
    (List.insertionSort r l) _ _ (by rw [hfil, hfil2]) hcount
    (List.mem_append_right _ (List.mem_cons_self o2 _))

theorem sameId_update (a b : Order) (qv : Int) :
    sameId { a with quantity := qv } b ↔ sameId a b := by
  simp [sameId]

theorem count_ge_two (o1 : Order) (C D : List Order)
    (h1 : o1 ∈ C) (h2 : o1 ∈ D) : 2 ≤ (C ++ D).count o1 := by
  rw [List.count_append]
  have hc1 : 0 < C.count o1 := List.count_pos_iff.2 h1
  have hc2 : 0 < D.count o1 := List.count_pos_iff.2 h2
  omega

theorem matchLoop_fifo (stock side : String) (p : Rat) (u : String)
    (ts : Nat → Nat) (k : Nat) (rem : Int) (L C D : List Order)
    (o1 o2 : Order)
    (hL : L = C ++ o2 :: D)
    (ho1 : o1 ∈ C)
    (hu : ∀ x ∈ L, sameId x o1 → x = o1)
    (hc : L.count o1 = 1) :
    o2 ∈ (matchLoop stock side p u ts k rem L).2.2 ∨
      ∀ x ∈ (matchLoop stock side p u ts k rem L).2.2, ¬ sameId x o1 := by
  have ho2L : o2 ∈ L := by
    rw [hL]
    exact List.mem_append_right C (List.mem_cons_self o2 D)
  obtain ⟨A, B, hAB, hres⟩ := matchLoop_shape stock side p u ts k rem L
  have hAppEq : A ++ B = C ++ (o2 :: D) := by rw [← hAB, hL]
  rcases List.append_eq_append_iff.1 hAppEq with ⟨E, hCE, hBE⟩ | ⟨C2, hA, hD⟩
  · rcases hres with hres1 | ⟨e, qv, B2, hBeB2, hresm⟩
    · left
      rw [hres1, hBE]
      exact List.mem_append_right E (List.mem_cons_self o2 D)
    · cases E with
      | nil =>
        rw [List.nil_append] at hBE
        rw [hBE] at hBeB2
        injection hBeB2 with he hB2
        right
        intro x hx hsame
        rw [hresm] at hx
        rcases List.mem_cons.1 hx with hx0 | hx1
        · rw [hx0] at hsame
          rw [sameId_update] at hsame
          have he2 : e = o1 := hu e (he ▸ ho2L) hsame
          rw [he, he2] at hL
          have := count_ge_two o1 C (o1 :: D) ho1 (List.mem_cons_self o1 D)
          rw [← hL] at this
          omega
        · rw [← hB2] at hx1
          have hx1L : x ∈ L := by
            rw [hL]
            exact List.mem_append_right C (List.mem_cons_of_mem o2 hx1)
          have hxo1 : x = o1 := hu x hx1L hsame
          rw [hxo1] at hx1
          have := count_ge_two o1 C (o2 :: D) ho1 (List.mem_cons_of_mem o2 hx1)
          rw [← hL] at this
          omega
      | cons e2 E2 =>
        left
        rw [List.cons_append] at hBE
        rw [hBE] at hBeB2
        injection hBeB2 with he hB2
        rw [hresm, ← hB2]
        exact List.mem_cons_of_mem _
          (List.mem_append_right E2 (List.mem_cons_self o2 D))
  · have ho1A : o1 ∈ A := by rw [hA]; exact List.mem_append_left C2 ho1
    cases C2 with
    | nil =>
      rw [List.nil_append] at hD
      rcases hres with hres1 | ⟨e, qv, B2, hBeB2, hresm⟩
      · left
        rw [hres1, ← hD]
        exact List.mem_cons_self o2 D
      · rw [← hD] at hBeB2
        injection hBeB2 with he hB2
        right
        intro x hx hsame
        rw [hresm] at hx
        rcases List.mem_cons.1 hx with hx0 | hx1
        · rw [hx0] at hsame
          rw [sameId_update] at hsame
          have he2 : e = o1 := hu e (he ▸ ho2L) hsame
          rw [he, he2] at hL
          have hge := count_ge_two o1 C (o1 :: D) ho1 (List.mem_cons_self o1 D)
          rw [← hL] at hge
          omega
        · rw [← hB2] at hx1
          have hx1L : x ∈ L := by
            rw [hL]
            exact List.mem_append_right C (List.mem_cons_of_mem o2 hx1)
          have hxo1 : x = o1 := hu x hx1L hsame
          rw [hxo1] at hx1
          have hge := count_ge_two o1 C (o2 :: D) ho1
            (List.mem_cons_of_mem o2 hx1)
          rw [← hL] at hge
          omega
    | cons c C3 =>
      rw [List.cons_append] at hD
      injection hD with hco2 hD2
      have hBD : ∀ x ∈ B, x ∈ D := by
        intro x hx
        rw [hD2]
        exact List.mem_append_right C3 hx
      have hnot : ∀ x ∈ B, ¬ sameId x o1 := by
        intro x hx hsame
        have hxL : x ∈ L := by
          rw [hL]
          exact List.mem_append_right C (List.mem_cons_of_mem o2 (hBD x hx))
        have hxo1 : x = o1 := hu x hxL hsame
        rw [hxo1] at hx
        have hge := count_ge_two o1 C (o2 :: D) ho1
          (List.mem_cons_of_mem o2 (hBD o1 hx))
        rw [← hL] at hge
        omega
      rcases hres with hres1 | ⟨e, qv, B2, hBeB2, hresm⟩
      · right
        intro x hx
        rw [hres1] at hx
        exact hnot x hx
      · right
        intro x hx hsame
        rw [hresm] at hx
        rcases List.mem_cons.1 hx with hx0 | hx1
        · rw [hx0] at hsame
          rw [sameId_update] at hsame
          exact hnot e (by rw [hBeB2]; exact List.mem_cons_self e B2) hsame
        · exact hnot x (by rw [hBeB2]; exact List.mem_cons_of_mem e hx1) hsame

/-- C4: price-time priority.  If the stored opposite-side list holds
o1 before o2 at the same price (earlier insertion = earlier position,
preserved by the stable re-sort), with o1's identity unique in that
list, then after matching an incoming order either o2 still rests
exactly as it was — no quantity was matched against it — or no order
with o1's identity remains: o1 was fully filled first. -/
theorem c4_price_time_priority (ts : Nat → Nat) (books : Books) (o : Order)
    (l1 l2 l3 : List Order) (o1 o2 : Order)
    (hdec : oppList o.side (bookAt books (stockOf o)) =
      l1 ++ o1 :: l2 ++ o2 :: l3)
    (hp : o1.price = o2.price)
    (hu : ∀ x ∈ oppList o.side (bookAt books (stockOf o)),
      sameId x o1 → x = o1)
    (hc : (oppList o.side (bookAt books (stockOf o))).count o1 = 1)
    (hside : o.side = "BUY" ∨ o.side = "SELL") :
    o2 ∈ oppList o.side (bookAt (matchOrder ts books o).2 (stockOf o)) ∨
      ∀ x ∈ oppList o.side (bookAt (matchOrder ts books o).2 (stockOf o)),
        ¬ sameId x o1 := by
  rcases hside with hb | hsl
  · have hopp : oppList o.side (bookAt (matchOrder ts books o).2 (stockOf o)) =
        (matchLoop (stockOf o) "BUY" o.price o.username ts 0 o.quantity
          (sortAsc (bookAt books (stockOf o)).sell)).2.2 := by
      rw [matchOrder_buy_state ts books o hb]
      split <;> simp [oppList, hb]
    have hsell : (bookAt books (stockOf o)).sell = l1 ++ o1 :: l2 ++ o2 :: l3 := by
      rw [← hdec]
      simp [oppList, hb]
    have hu2 : ∀ x ∈ (bookAt books (stockOf o)).sell, sameId x o1 → x = o1 := by
      simpa [oppList, hb] using hu
    have hc2 : (sortAsc (bookAt books (stockOf o)).sell).count o1 = 1 := by
      rw [sortAsc, (List.perm_insertionSort _ _).count_eq]
      simpa [oppList, hb] using hc
    obtain ⟨cs, ds, hsort, ho2⟩ :=
      sort_decomp (fun a b : Order => a.price ≤ b.price)
        (fun a b h => le_of_eq h)
        (bookAt books (stockOf o)).sell l1 l2 l3 o1 o2 hsell hp
        (by simpa [oppList, hb] using hc)
    obtain ⟨m1, m2, hds⟩ := List.append_of_mem ho2
    rw [hopp]
    apply matchLoop_fifo (stockOf o) "BUY" o.price o.username ts 0 o.quantity
      (sortAsc (bookAt books (stockOf o)).sell) (cs ++ o1 :: m1) m2 o1 o2
    · show sortAsc (bookAt books (stockOf o)).sell = _
      rw [show sortAsc (bookAt books (stockOf o)).sell =
        List.insertionSort (fun a b : Order => a.price ≤ b.price)
          (bookAt books (stockOf o)).sell from rfl, hsort, hds]
      simp
    · exact List.mem_append_right cs (List.mem_cons_self o1 m1)
    · intro x hx
      exact hu2 x ((mem_sortAsc x _).1 hx)
    · exact hc2
  · have hopp : oppList o.side (bookAt (matchOrder ts books o).2 (stockOf o)) =
        (matchLoop (stockOf o) "SELL" o.price o.username ts 0 o.quantity
          (sortDesc (bookAt books (stockOf o)).buy)).2.2 := by
      rw [matchOrder_sell_state ts books o hsl]
      split <;> simp [oppList, hsl]
    have hbuy : (bookAt books (stockOf o)).buy = l1 ++ o1 :: l2 ++ o2 :: l3 := by
      rw [← hdec]
      simp [oppList, hsl]
    have hu2 : ∀ x ∈ (bookAt books (stockOf o)).buy, sameId x o1 → x = o1 := by
      simpa [oppList, hsl] using hu
    have hc2 : (sortDesc (bookAt books (stockOf o)).buy).count o1 = 1 := by
      rw [sortDesc, (List.perm_insertionSort _ _).count_eq]
      simpa [oppList, hsl] using hc
    obtain ⟨cs, ds, hsort, ho2⟩ :=
      sort_decomp (fun a b : Order => b.price ≤ a.price)
        (fun a b h => le_of_eq h.symm)
        (bookAt books (stockOf o)).buy l1 l2 l3 o1 o2 hbuy hp
        (by simpa [oppList, hsl] using hc)
    obtain ⟨m1, m2, hds⟩ := List.append_of_mem ho2
    rw [hopp]
    apply matchLoop_fifo (stockOf o) "SELL" o.price o.username ts 0 o.quantity
      (sortDesc (bookAt books (stockOf o)).buy) (cs ++ o1 :: m1) m2 o1 o2
    · show sortDesc (bookAt books (stockOf o)).buy = _
      rw [show sortDesc (bookAt books (stockOf o)).buy =
        List.insertionSort (fun a b : Order => b.price ≤ a.price)
          (bookAt books (stockOf o)).buy from rfl, hsort, hds]
      simp
    · exact List.mem_append_right cs (List.mem_cons_self o1 m1)
    · intro x hx
      exact hu2 x ((mem_sortDesc x _).1 hx)
    · exact hc2

/-- C4 witness: two equal-priced resting asks, an incoming buy that
exhausts the first and part of the second. -/
theorem c4_price_time_priority_witness :
    c4o2 ∈ oppList c4Buy.side
        (bookAt (matchOrder ts0 c4Books c4Buy).2 (stockOf c4Buy)) ∨
      ∀ x ∈ oppList c4Buy.side
          (bookAt (matchOrder ts0 c4Books c4Buy).2 (stockOf c4Buy)),
        ¬ sameId x c4o1 :=
  c4_price_time_priority ts0 c4Books c4Buy [] [] [] c4o1 c4o2
    (by decide) (by decide) (by decide) (by decide) (Or.inl rfl)
